import Mathlib

/-!
The command handlers `k8s-deploy` and `k8s-undeploy`: a shallow embedding of
`KubernetesDeployCommand.Execute` (`commands/k8s_deploy_command.go`) and
`KubernetesUndeployCommand.Execute` (`commands/k8s_undeploy_command.go`).

Both handlers are straight-line glue over collaborators that live outside the
two files (the `BaseCommand` methods, `ui`, `util`, the REST client, the
session provider, the file uploader, the execution monitor).  Every
collaborator call is a field of `Env` giving the value the call returns, and
`Execute` returns the list of collaborator calls it made, in order, together
with the way it ended.  Output-only calls (`log.Tracef`, `ui.Say`,
`ui.Failed`, `ui.Warn`, `ui.Ok`, `c.Usage`) and `filepath.Abs` are not
recorded in the trace.
-/

namespace commands

/-- Modelled from the spec: the `ExecutionStatus` type is declared outside the
two source files; the handlers use its value `Failure` and the spec speaks of
"exit status success" and "failure status". -/
inductive ExecutionStatus where
  | Success
  | Failure
  deriving DecidableEq, Repr

/-- Modelled from the spec: the target context returned by `c.GetContext()`,
declared outside the two source files; the handlers read `Org`, `Space` and
`Username`. -/
structure Context where
  Org : String
  Space : String
  Username : String
  deriving DecidableEq, Repr

/-- Modelled from the spec: the uploaded-file record returned by
`UploadFiles()`, declared outside the two source files; the deploy handler
reads its `ID` ("identifier (assigned by remote service)"). -/
structure FileMetadata where
  ID : String
  deriving DecidableEq, Repr

/-- Modelled from the spec: the operation start request ("request containing
process type and a parameter mapping"), declared outside the two source files.
Parameters are kept in the order in which they were given. -/
structure Operation where
  ProcessType : String
  Parameters : List (String × String)
  deriving DecidableEq, Repr

/-- Modelled from the spec: the process builder (`util.NewProcessBuilder`,
`ProcessType`, `Parameter`, `Build`) is absent from the source files; it is a
"fluent accumulation of process type and named parameters".  The process type
is `none` until it is set; the parameters are kept in the order in which they
were given. -/
structure ProcessBuilder where
  processType : Option String
  parameters : List (String × String)
  deriving DecidableEq, Repr

/-- Modelled from the spec: the validation errors of `Build()`, absent from
the source files: `Build()` "fails (validation error) if process type is
unset, or if a parameter value is empty where the receiving command considers
it mandatory". -/
inductive ValidationError where
  | processTypeUnset
  | emptyMandatoryParameter
  deriving DecidableEq, Repr

/-- Modelled from the spec: the parameters that the command receiving a
request of the given process type considers mandatory, absent from the source
files; the spec names one, "`mtaId` for undeploy". -/
def mandatoryParameters (processType : String) : List String :=
  if processType = "UNDEPLOY" ∨ processType = "KUBERNETES_UNDEPLOY" then ["mtaId"] else []

/-- Modelled from the spec: the builder returned by `util.NewProcessBuilder()`,
absent from the source files, with no process type and no parameter. -/
def NewProcessBuilder : ProcessBuilder :=
  ⟨none, []⟩

/-- Modelled from the spec: the call `processBuilder.ProcessType(processType)`,
absent from the source files, which sets the process type. -/
def ProcessBuilder.ProcessType (pb : ProcessBuilder) (processType : String) : ProcessBuilder :=
  ⟨some processType, pb.parameters⟩

/-- Modelled from the spec: the call
`processBuilder.Parameter(parameterID, value)`, absent from the source files,
which adds a named parameter. -/
def ProcessBuilder.Parameter (pb : ProcessBuilder) (parameterID value : String) : ProcessBuilder :=
  ⟨pb.processType, pb.parameters ++ [(parameterID, value)]⟩

/-- Modelled from the spec: the call `processBuilder.Build()`, absent from the
source files: it "produces an immutable Operation start request" and "fails
(validation error) if process type is unset, or if a parameter value is empty
where the receiving command considers it mandatory (e.g., `mtaId` for
undeploy)". -/
def ProcessBuilder.Build (pb : ProcessBuilder) : Except ValidationError Operation :=
  match pb.processType with
  | none => .error .processTypeUnset
  | some processType =>
    if pb.parameters.any
        (fun parameter => (mandatoryParameters processType).contains parameter.1 &&
          parameter.2 == "") then
      .error .emptyMandatoryParameter
    else
      .ok ⟨processType, pb.parameters⟩

/-- The values of the command-line options after `ParseFlags` has succeeded:
`host` (`-u`, registered by `CreateFlags(&host)`), `extDescriptors` (`-e`),
`operationID` (`-i`), `action` (`-a`), `force` (`-f`), and the remaining option
values, which only `processParametersSetter` reads.  `k8s-undeploy` registers
`host`, `force`, `operationID` and `action` (its `actionID`) only. -/
structure OptionValues where
  host : String
  extDescriptors : String
  operationID : String
  action : String
  force : Bool
  others : List (String × String)
  deriving DecidableEq, Repr

/-- The two kinds of error of `util.GetMtaIDFromArchive` that the deploy
handler tells apart with `os.IsNotExist`. -/
inductive ArchiveError where
  | NotExist
  | Other (msg : String)
  deriving DecidableEq, Repr

/-- The values returned by the collaborators during one run of a command.
An `Option String` result is a Go `error` (`none` is `nil`).  `GetSession` and
`UploadFiles` are called at more than one place of `Execute`, so they take the
number of the place in program order (from 0), and may answer differently at
each.  `ContainsSpecificOptions` is always called with the option pair
`-i`, `-a`. -/
structure Env where
  CreateFlags : Option String
  ContainsSpecificOptions : List String → Bool × Option String
  ParseFlags : List String → List String → Except String OptionValues
  GetContext : Except String Context
  ExecuteAction : String → String → String → ExecutionStatus
  Confirm : String → Bool
  Abs : String → Except String String
  GetMtaIDFromArchive : String → Except ArchiveError String
  CheckOngoingOperation : String → String → Bool → Bool × Option String
  NewSessionProvider : String → Option String
  GetSession : Nat → Option String
  NewMtaClient : String → Option String
  UploadFiles : Nat → List String → List FileMetadata × ExecutionStatus
  processParametersSetter : OptionValues → ProcessBuilder → ProcessBuilder
  StartMtaOperation : Operation → Except String String
  Monitor : String → ExecutionStatus

/-- One collaborator call made by `Execute`, with its arguments and, where the
handler looks at it, its result. -/
inductive Event where
  | CreateFlags (err : Option String)
  | ContainsSpecificOptions (args : List String) (result : Bool × Option String)
  | ParseFlags (args positionalArgNames : List String) (result : Except String OptionValues)
  | GetContext (result : Except String Context)
  | ExecuteAction (operationID action host : String) (status : ExecutionStatus)
  | Confirm (mtaID : String) (answer : Bool)
  | GetMtaIDFromArchive (mtaArchivePath : String)
  | CheckOngoingOperation (mtaID host : String) (force : Bool) (result : Bool × Option String)
  | NewSessionProvider (host : String)
  | GetSession (err : Option String)
  | NewMtaClient (host : String)
  | UploadFiles (files : List String) (result : List FileMetadata × ExecutionStatus)
  | NewProcessBuilder
  | ProcessType (processType : String)
  | Parameter (parameterID value : String)
  | processParametersSetter
  | Build
  | StartMtaOperation (operation : Operation)
  | Monitor (location : String)

/-- How a run of `Execute` ends: it returns a status, or the read `args[0]`
is out of range (a Go run-time panic), or `Build()` fails with a validation
error: both methods take the single result of `Build()` and hand it to
`StartMtaOperation` with no branch in between, so a failed `Build()` ends the
run there, with its error. -/
inductive Outcome where
  | returned (status : ExecutionStatus)
  | indexOutOfRange
  | validationError (error : ValidationError)
  deriving DecidableEq, Repr

/-- The collaborator calls of one run, in order, and the way the run ended. -/
structure Result where
  trace : List Event
  outcome : Outcome

/-- The method `kubernetesDeployCommandProcessTypeProvider.GetProcessType`. -/
def kubernetesDeployCommandProcessTypeProvider.GetProcessType : String :=
  "KUBERNETES_DEPLOY"

/-- The method `kubernetesUndeployCommandProcessTypeProvider.GetProcessType`. -/
def kubernetesUndeployCommandProcessTypeProvider.GetProcessType : String :=
  "KUBERNETES_UNDEPLOY"

/-- The value of `positionalArgNames` handed to `ParseFlags`: the single name
of the command's positional argument, unless the command line asks for an
action on an existing process. -/
def positionalArgNames (shouldExecuteActionOnExistingProcess : Bool) (name : String) :
    List String :=
  if !shouldExecuteActionOnExistingProcess then [name] else []

/-- The calls made while `!force && !ui.Confirm(...)` is evaluated: `&&` is
short-circuit, so the operator is asked only when `force` is false. -/
def confirmCalls (env : Env) (force : Bool) (mtaID : String) : List Event :=
  if force then [] else [Event.Confirm mtaID (env.Confirm mtaID)]

/-- The loop of `KubernetesDeployCommand.Execute` over `extDescriptorFiles`:
each file is made absolute and appended to `extDescriptorPaths`; the first
file whose `filepath.Abs` fails ends the command (`none`). -/
def extDescriptorPathsLoop (abs : String → Except String String) :
    List String → List String → Option (List String)
  | [], extDescriptorPaths => some extDescriptorPaths
  | extDescriptorFile :: rest, extDescriptorPaths =>
    match abs extDescriptorFile with
    | .error _ => none
    | .ok extDescriptorPath =>
      extDescriptorPathsLoop abs rest (extDescriptorPaths ++ [extDescriptorPath])

/-- The pieces of a list of characters between the occurrences of `sep`: there
is one piece more than there are occurrences. -/
def splitChars (sep : Char) : List Char → List (List Char)
  | [] => [[]]
  | ch :: rest =>
    if ch = sep then
      [] :: splitChars sep rest
    else
      match splitChars sep rest with
      | [] => [[ch]]
      | piece :: pieces => (ch :: piece) :: pieces

/-- The call `strings.Split(s, sep)` of the Go library for a separator `sep` of
one character: the substrings of `s` between the occurrences of `sep`, in
order. -/
def stringsSplit (s : String) (sep : Char) : List String :=
  (splitChars sep s.toList).map String.mk

/-- The block "Get the full paths of the extension descriptors" of
`KubernetesDeployCommand.Execute`: the value of `extDescriptorPaths` after it,
or `none` when the block returns `Failure`. -/
def getExtDescriptorPaths (abs : String → Except String String) (extDescriptors : String) :
    Option (List String) :=
  if extDescriptors ≠ "" then
    extDescriptorPathsLoop abs (stringsSplit extDescriptors ',') []
  else
    some []

/-- The calls made by the block "Upload the extension descriptor files" of
`KubernetesDeployCommand.Execute`: one upload of all the paths, when there is
a path. -/
def uploadExtDescriptorsCalls (env : Env) (extDescriptorPaths : List String) : List Event :=
  if extDescriptorPaths.length ≠ 0 then
    [Event.UploadFiles extDescriptorPaths (env.UploadFiles 1 extDescriptorPaths)]
  else
    []

/-- The block "Upload the extension descriptor files" of
`KubernetesDeployCommand.Execute`: the value of `uploadedExtDescriptorIDs`
after it, or `none` when the block returns `Failure`. -/
def uploadExtDescriptors (env : Env) (extDescriptorPaths : List String) :
    Option (List String) :=
  if extDescriptorPaths.length ≠ 0 then
    match env.UploadFiles 1 extDescriptorPaths with
    | (_, .Failure) => none
    | (uploadedExtDescriptors, .Success) => some (uploadedExtDescriptors.map FileMetadata.ID)
  else
    some []

/-- The block "Build the process instance" of
`KubernetesDeployCommand.Execute`: the result of `processBuilder.Build()` at
its end. -/
def KubernetesDeployCommand.buildOperation (env : Env) (optionValues : OptionValues)
    (context : Context) (uploadedArchivePartIds uploadedExtDescriptorIDs : List String) :
    Except ValidationError Operation :=
  let processBuilder := NewProcessBuilder
  let processBuilder := processBuilder.ProcessType
    kubernetesDeployCommandProcessTypeProvider.GetProcessType
  let processBuilder := processBuilder.Parameter "appArchiveId"
    (String.intercalate "," uploadedArchivePartIds)
  let processBuilder := processBuilder.Parameter "mtaExtDescriptorId"
    (String.intercalate "," uploadedExtDescriptorIDs)
  let processBuilder := processBuilder.Parameter "targetPlatform"
    (context.Org ++ " " ++ context.Space)
  let processBuilder := env.processParametersSetter optionValues processBuilder
  processBuilder.Build

/-- The calls made by the block "Build the process instance" of
`KubernetesDeployCommand.Execute`. -/
def KubernetesDeployCommand.buildCalls (context : Context)
    (uploadedArchivePartIds uploadedExtDescriptorIDs : List String) : List Event :=
  [Event.NewProcessBuilder,
    Event.ProcessType kubernetesDeployCommandProcessTypeProvider.GetProcessType,
    Event.Parameter "appArchiveId" (String.intercalate "," uploadedArchivePartIds),
    Event.Parameter "mtaExtDescriptorId" (String.intercalate "," uploadedExtDescriptorIDs),
    Event.Parameter "targetPlatform" (context.Org ++ " " ++ context.Space),
    Event.processParametersSetter, Event.Build]

/-- The method `KubernetesDeployCommand.Execute`. -/
def KubernetesDeployCommand.Execute (env : Env) (args : List String) : Result :=
  let t := [Event.CreateFlags env.CreateFlags]
  match env.CreateFlags with
  | some _ => ⟨t, .returned .Failure⟩
  | none =>
    let t := t ++ [Event.ContainsSpecificOptions args (env.ContainsSpecificOptions args)]
    match env.ContainsSpecificOptions args with
    | (_, some _) => ⟨t, .returned .Failure⟩
    | (shouldExecuteActionOnExistingProcess, none) =>
      let positionalArgNames := positionalArgNames shouldExecuteActionOnExistingProcess "MTA"
      let t := t ++ [Event.ParseFlags args positionalArgNames (env.ParseFlags args positionalArgNames)]
      match env.ParseFlags args positionalArgNames with
      | .error _ => ⟨t, .returned .Failure⟩
      | .ok optionValues =>
        let extDescriptors := optionValues.extDescriptors
        let operationID := optionValues.operationID
        let action := optionValues.action
        let force := optionValues.force
        let host := optionValues.host
        let t := t ++ [Event.GetContext env.GetContext]
        match env.GetContext with
        | .error _ => ⟨t, .returned .Failure⟩
        | .ok context =>
          if operationID ≠ "" ∨ action ≠ "" then
            ⟨t ++ [Event.ExecuteAction operationID action host
                (env.ExecuteAction operationID action host)],
              .returned (env.ExecuteAction operationID action host)⟩
          else
            match args.head? with
            | none => ⟨t, .indexOutOfRange⟩
            | some mtaArchive =>
              match env.Abs mtaArchive with
              | .error _ => ⟨t, .returned .Failure⟩
              | .ok mtaArchivePath =>
                match getExtDescriptorPaths env.Abs extDescriptors with
                | none => ⟨t, .returned .Failure⟩
                | some extDescriptorPaths =>
                  let t := t ++ [Event.GetMtaIDFromArchive mtaArchivePath]
                  match env.GetMtaIDFromArchive mtaArchivePath with
                  | .error _ => ⟨t, .returned .Failure⟩
                  | .ok mtaID =>
                    let t := t ++ [Event.CheckOngoingOperation mtaID host force
                      (env.CheckOngoingOperation mtaID host force)]
                    match env.CheckOngoingOperation mtaID host force with
                    | (_, some _) => ⟨t, .returned .Failure⟩
                    | (false, none) => ⟨t, .returned .Failure⟩
                    | (true, none) =>
                      let t := t ++ [Event.NewSessionProvider host]
                      match env.NewSessionProvider host with
                      | some _ => ⟨t, .returned .Failure⟩
                      | none =>
                        let t := t ++ [Event.GetSession (env.GetSession 0)]
                        match env.GetSession 0 with
                        | some _ => ⟨t, .returned .Failure⟩
                        | none =>
                          let t := t ++ [Event.NewMtaClient host]
                          match env.NewMtaClient host with
                          | some _ => ⟨t, .returned .Failure⟩
                          | none =>
                            let t := t ++ [Event.UploadFiles [mtaArchivePath]
                              (env.UploadFiles 0 [mtaArchivePath])]
                            match env.UploadFiles 0 [mtaArchivePath] with
                            | (_, .Failure) => ⟨t, .returned .Failure⟩
                            | (uploadedMtaArchives, .Success) =>
                              let uploadedArchivePartIds := uploadedMtaArchives.map FileMetadata.ID
                              let t := t ++ uploadExtDescriptorsCalls env extDescriptorPaths
                              match uploadExtDescriptors env extDescriptorPaths with
                              | none => ⟨t, .returned .Failure⟩
                              | some uploadedExtDescriptorIDs =>
                                let t := t ++ KubernetesDeployCommand.buildCalls context
                                  uploadedArchivePartIds uploadedExtDescriptorIDs
                                match KubernetesDeployCommand.buildOperation env
                                  optionValues context uploadedArchivePartIds
                                  uploadedExtDescriptorIDs with
                                | .error error => ⟨t, .validationError error⟩
                                | .ok operation =>
                                  let t := t ++ [Event.GetSession (env.GetSession 1)]
                                  match env.GetSession 1 with
                                  | some _ => ⟨t, .returned .Failure⟩
                                  | none =>
                                    let t := t ++ [Event.StartMtaOperation operation]
                                    match env.StartMtaOperation operation with
                                    | .error _ => ⟨t, .returned .Failure⟩
                                    | .ok location =>
                                      ⟨t ++ [Event.Monitor location],
                                        .returned (env.Monitor location)⟩

/-- The block of `KubernetesUndeployCommand.Execute` that builds the start
request: the result of `processBuilder.Build()` at its end. -/
def KubernetesUndeployCommand.buildOperation (mtaID : String) :
    Except ValidationError Operation :=
  let processBuilder := NewProcessBuilder
  let processBuilder := processBuilder.ProcessType
    kubernetesUndeployCommandProcessTypeProvider.GetProcessType
  let processBuilder := processBuilder.Parameter "mtaId" mtaID
  processBuilder.Build

/-- The calls made by the block of `KubernetesUndeployCommand.Execute` that
builds the start request. -/
def KubernetesUndeployCommand.buildCalls (mtaID : String) : List Event :=
  [Event.NewProcessBuilder,
    Event.ProcessType kubernetesUndeployCommandProcessTypeProvider.GetProcessType,
    Event.Parameter "mtaId" mtaID, Event.Build]

/-- The method `KubernetesUndeployCommand.Execute`. -/
def KubernetesUndeployCommand.Execute (env : Env) (args : List String) : Result :=
  let t := [Event.CreateFlags env.CreateFlags]
  match env.CreateFlags with
  | some _ => ⟨t, .returned .Failure⟩
  | none =>
    let t := t ++ [Event.ContainsSpecificOptions args (env.ContainsSpecificOptions args)]
    let shouldExecuteActionOnExistingProcess := (env.ContainsSpecificOptions args).1
    let positionalArgNames := positionalArgNames shouldExecuteActionOnExistingProcess "MTA_ID"
    let t := t ++ [Event.ParseFlags args positionalArgNames (env.ParseFlags args positionalArgNames)]
    match env.ParseFlags args positionalArgNames with
    | .error _ => ⟨t, .returned .Failure⟩
    | .ok optionValues =>
      let host := optionValues.host
      let operationID := optionValues.operationID
      let actionID := optionValues.action
      let force := optionValues.force
      let t := t ++ [Event.GetContext env.GetContext]
      match env.GetContext with
      | .error _ => ⟨t, .returned .Failure⟩
      | .ok _ =>
        if operationID ≠ "" ∨ actionID ≠ "" then
          ⟨t ++ [Event.ExecuteAction operationID actionID host
              (env.ExecuteAction operationID actionID host)],
            .returned (env.ExecuteAction operationID actionID host)⟩
        else
          match args.head? with
          | none => ⟨t, .indexOutOfRange⟩
          | some mtaID =>
            let t := t ++ confirmCalls env force mtaID
            if !force && !env.Confirm mtaID then ⟨t, .returned .Failure⟩
            else
              let t := t ++ [Event.NewMtaClient host]
              match env.NewMtaClient host with
              | some _ => ⟨t, .returned .Failure⟩
              | none =>
                let t := t ++ [Event.CheckOngoingOperation mtaID host force
                  (env.CheckOngoingOperation mtaID host force)]
                match env.CheckOngoingOperation mtaID host force with
                | (_, some _) => ⟨t, .returned .Failure⟩
                | (false, none) => ⟨t, .returned .Failure⟩
                | (true, none) =>
                  let t := t ++ [Event.NewSessionProvider host]
                  match env.NewSessionProvider host with
                  | some _ => ⟨t, .returned .Failure⟩
                  | none =>
                    let t := t ++ [Event.GetSession (env.GetSession 0)]
                    match env.GetSession 0 with
                    | some _ => ⟨t, .returned .Failure⟩
                    | none =>
                      let t := t ++ KubernetesUndeployCommand.buildCalls mtaID
                      match KubernetesUndeployCommand.buildOperation mtaID with
                      | .error error => ⟨t, .validationError error⟩
                      | .ok operation =>
                        let t := t ++ [Event.StartMtaOperation operation]
                        match env.StartMtaOperation operation with
                        | .error _ => ⟨t, .returned .Failure⟩
                        | .ok location =>
                          let t := t ++ [Event.GetSession (env.GetSession 1)]
                          ⟨t ++ [Event.Monitor location], .returned (env.Monitor location)⟩

/-! ## Kinds of calls -/

/-- The collaborator that a call goes to, without its arguments and result. -/
inductive Call where
  | CreateFlags
  | ContainsSpecificOptions
  | ParseFlags
  | GetContext
  | ExecuteAction
  | Confirm
  | GetMtaIDFromArchive
  | CheckOngoingOperation
  | NewSessionProvider
  | GetSession
  | NewMtaClient
  | UploadFiles
  | NewProcessBuilder
  | ProcessType
  | Parameter
  | processParametersSetter
  | Build
  | StartMtaOperation
  | Monitor
  deriving DecidableEq, Repr

/-- The collaborator that the call `e` goes to. -/
def Event.call : Event → Call
  | .CreateFlags _ => .CreateFlags
  | .ContainsSpecificOptions _ _ => .ContainsSpecificOptions
  | .ParseFlags _ _ _ => .ParseFlags
  | .GetContext _ => .GetContext
  | .ExecuteAction _ _ _ _ => .ExecuteAction
  | .Confirm _ _ => .Confirm
  | .GetMtaIDFromArchive _ => .GetMtaIDFromArchive
  | .CheckOngoingOperation _ _ _ _ => .CheckOngoingOperation
  | .NewSessionProvider _ => .NewSessionProvider
  | .GetSession _ => .GetSession
  | .NewMtaClient _ => .NewMtaClient
  | .UploadFiles _ _ => .UploadFiles
  | .NewProcessBuilder => .NewProcessBuilder
  | .ProcessType _ => .ProcessType
  | .Parameter _ _ => .Parameter
  | .processParametersSetter => .processParametersSetter
  | .Build => .Build
  | .StartMtaOperation _ => .StartMtaOperation
  | .Monitor _ => .Monitor

/-- The collaborators called in a run, in order. -/
def Result.calls (r : Result) : List Call :=
  r.trace.map Event.call

/-! ## The paths through `KubernetesDeployCommand.Execute` -/

/-- The calls of a run of `KubernetesDeployCommand.Execute` up to the one to
`ParseFlags`, whose result is `r`. -/
def deployParsed (args : List String) (b : Bool) (r : Except String OptionValues) :
    List Event :=
  [.CreateFlags none] ++ [.ContainsSpecificOptions args (b, none)] ++
    [.ParseFlags args (positionalArgNames b "MTA") r]

/-- The calls of a run of `KubernetesDeployCommand.Execute` that is not in the
action form, up to the one to `CheckOngoingOperation`, whose result is `r`. -/
def deployChecked (args : List String) (b : Bool) (v : OptionValues) (c : Context)
    (mtaArchivePath mtaID : String) (r : Bool × Option String) : List Event :=
  deployParsed args b (.ok v) ++ [.GetContext (.ok c)] ++
    [.GetMtaIDFromArchive mtaArchivePath] ++ [.CheckOngoingOperation mtaID v.host v.force r]

/-- The calls of a run of `KubernetesDeployCommand.Execute` from the creation
of the session provider to the upload of the archive, whose result is `r`. -/
def deployArchiveUpload (v : OptionValues) (mtaArchivePath : String)
    (r : List FileMetadata × ExecutionStatus) : List Event :=
  [.NewSessionProvider v.host] ++ [.GetSession none] ++ [.NewMtaClient v.host] ++
    [.UploadFiles [mtaArchivePath] r]

/-- The conditions under which `KubernetesDeployCommand.Execute` reaches the
read of `args[0]` and finds `mtaArchive` there. -/
@[reducible] def DeployArgument (env : Env) (args : List String) (b : Bool) (v : OptionValues)
    (c : Context) (mtaArchive : String) : Prop :=
  env.CreateFlags = none ∧ env.ContainsSpecificOptions args = (b, none) ∧
  env.ParseFlags args (positionalArgNames b "MTA") = .ok v ∧
  env.GetContext = .ok c ∧ ¬(v.operationID ≠ "" ∨ v.action ≠ "") ∧ args.head? = some mtaArchive

/-- The conditions under which `KubernetesDeployCommand.Execute` reaches the
conflict check for `mtaID`. -/
@[reducible] def DeployIdentified (env : Env) (args : List String) (b : Bool)
    (v : OptionValues) (c : Context) (mtaArchive mtaArchivePath : String)
    (extDescriptorPaths : List String) (mtaID : String) : Prop :=
  DeployArgument env args b v c mtaArchive ∧ env.Abs mtaArchive = .ok mtaArchivePath ∧
  getExtDescriptorPaths env.Abs v.extDescriptors = some extDescriptorPaths ∧
  env.GetMtaIDFromArchive mtaArchivePath = .ok mtaID

/-- The conditions under which `KubernetesDeployCommand.Execute` reaches the
upload of the archive. -/
@[reducible] def DeployConnected (env : Env) (args : List String) (b : Bool)
    (v : OptionValues) (c : Context) (mtaArchive mtaArchivePath : String)
    (extDescriptorPaths : List String) (mtaID : String) : Prop :=
  DeployIdentified env args b v c mtaArchive mtaArchivePath extDescriptorPaths mtaID ∧
  env.CheckOngoingOperation mtaID v.host v.force = (true, none) ∧
  env.NewSessionProvider v.host = none ∧ env.GetSession 0 = none ∧
  env.NewMtaClient v.host = none

/-- The conditions under which `KubernetesDeployCommand.Execute` gets past
both uploads. -/
@[reducible] def DeployUploaded (env : Env) (args : List String) (b : Bool)
    (v : OptionValues) (c : Context) (mtaArchive mtaArchivePath : String)
    (extDescriptorPaths : List String) (mtaID : String)
    (uploadedMtaArchives : List FileMetadata) (uploadedExtDescriptorIDs : List String) : Prop :=
  DeployConnected env args b v c mtaArchive mtaArchivePath extDescriptorPaths mtaID ∧
  env.UploadFiles 0 [mtaArchivePath] = (uploadedMtaArchives, .Success) ∧
  uploadExtDescriptors env extDescriptorPaths = some uploadedExtDescriptorIDs

/-- The calls of a run of `KubernetesDeployCommand.Execute` that gets past both
uploads, up to the call `Build()`. -/
def deployUploadedCalls (env : Env) (args : List String) (b : Bool) (v : OptionValues)
    (c : Context) (mtaArchivePath : String) (extDescriptorPaths : List String) (mtaID : String)
    (uploadedMtaArchives : List FileMetadata) (uploadedExtDescriptorIDs : List String) :
    List Event :=
  deployChecked args b v c mtaArchivePath mtaID (true, none) ++
    deployArchiveUpload v mtaArchivePath (uploadedMtaArchives, .Success) ++
    uploadExtDescriptorsCalls env extDescriptorPaths ++
    KubernetesDeployCommand.buildCalls c (uploadedMtaArchives.map FileMetadata.ID)
      uploadedExtDescriptorIDs

/-- The calls of a run of `KubernetesDeployCommand.Execute` whose `Build()`
succeeds, up to the second call to `GetSession`, whose result is `r`. -/
def deployBuilt (env : Env) (args : List String) (b : Bool) (v : OptionValues) (c : Context)
    (mtaArchivePath : String) (extDescriptorPaths : List String) (mtaID : String)
    (uploadedMtaArchives : List FileMetadata) (uploadedExtDescriptorIDs : List String)
    (r : Option String) : List Event :=
  deployUploadedCalls env args b v c mtaArchivePath extDescriptorPaths mtaID
    uploadedMtaArchives uploadedExtDescriptorIDs ++ [.GetSession r]

/-- The runs of `KubernetesDeployCommand.Execute`, one constructor for each
path through the method. -/
inductive DeployRun (env : Env) (args : List String) : Result → Prop where
  | createFlagsFailed (e : String) (hcf : env.CreateFlags = some e) :
    DeployRun env args ⟨[.CreateFlags (some e)], .returned .Failure⟩
  | optionsCheckFailed (b : Bool) (e : String) (hcf : env.CreateFlags = none)
    (hso : env.ContainsSpecificOptions args = (b, some e)) :
    DeployRun env args
      ⟨[.CreateFlags none] ++ [.ContainsSpecificOptions args (b, some e)], .returned .Failure⟩
  | parseFlagsFailed (b : Bool) (e : String) (hcf : env.CreateFlags = none)
    (hso : env.ContainsSpecificOptions args = (b, none))
    (hpf : env.ParseFlags args (positionalArgNames b "MTA") = .error e) :
    DeployRun env args ⟨deployParsed args b (.error e), .returned .Failure⟩
  | getContextFailed (b : Bool) (v : OptionValues) (e : String) (hcf : env.CreateFlags = none)
    (hso : env.ContainsSpecificOptions args = (b, none))
    (hpf : env.ParseFlags args (positionalArgNames b "MTA") = .ok v)
    (hgc : env.GetContext = .error e) :
    DeployRun env args
      ⟨deployParsed args b (.ok v) ++ [.GetContext (.error e)], .returned .Failure⟩
  | action (b : Bool) (v : OptionValues) (c : Context) (hcf : env.CreateFlags = none)
    (hso : env.ContainsSpecificOptions args = (b, none))
    (hpf : env.ParseFlags args (positionalArgNames b "MTA") = .ok v)
    (hgc : env.GetContext = .ok c) (hact : v.operationID ≠ "" ∨ v.action ≠ "") :
    DeployRun env args
      ⟨deployParsed args b (.ok v) ++ [.GetContext (.ok c)] ++
        [.ExecuteAction v.operationID v.action v.host
          (env.ExecuteAction v.operationID v.action v.host)],
        .returned (env.ExecuteAction v.operationID v.action v.host)⟩
  | noArgument (b : Bool) (v : OptionValues) (c : Context) (hcf : env.CreateFlags = none)
    (hso : env.ContainsSpecificOptions args = (b, none))
    (hpf : env.ParseFlags args (positionalArgNames b "MTA") = .ok v)
    (hgc : env.GetContext = .ok c) (hact : ¬(v.operationID ≠ "" ∨ v.action ≠ ""))
    (harg : args.head? = none) :
    DeployRun env args ⟨deployParsed args b (.ok v) ++ [.GetContext (.ok c)], .indexOutOfRange⟩
  | absFailed (b : Bool) (v : OptionValues) (c : Context) (mtaArchive e : String)
    (ha : DeployArgument env args b v c mtaArchive) (habs : env.Abs mtaArchive = .error e) :
    DeployRun env args
      ⟨deployParsed args b (.ok v) ++ [.GetContext (.ok c)], .returned .Failure⟩
  | extDescriptorAbsFailed (b : Bool) (v : OptionValues) (c : Context)
    (mtaArchive mtaArchivePath : String)
    (ha : DeployArgument env args b v c mtaArchive) (habs : env.Abs mtaArchive = .ok mtaArchivePath)
    (hext : getExtDescriptorPaths env.Abs v.extDescriptors = none) :
    DeployRun env args
      ⟨deployParsed args b (.ok v) ++ [.GetContext (.ok c)], .returned .Failure⟩
  | getMtaIDFailed (b : Bool) (v : OptionValues) (c : Context)
    (mtaArchive mtaArchivePath : String) (extDescriptorPaths : List String) (e : ArchiveError)
    (ha : DeployArgument env args b v c mtaArchive) (habs : env.Abs mtaArchive = .ok mtaArchivePath)
    (hext : getExtDescriptorPaths env.Abs v.extDescriptors = some extDescriptorPaths)
    (hid : env.GetMtaIDFromArchive mtaArchivePath = .error e) :
    DeployRun env args
      ⟨deployParsed args b (.ok v) ++ [.GetContext (.ok c)] ++
        [.GetMtaIDFromArchive mtaArchivePath], .returned .Failure⟩
  | checkFailed (b : Bool) (v : OptionValues) (c : Context)
    (mtaArchive mtaArchivePath : String) (extDescriptorPaths : List String) (mtaID e : String)
    (wasAborted : Bool)
    (hi : DeployIdentified env args b v c mtaArchive mtaArchivePath extDescriptorPaths mtaID)
    (hchk : env.CheckOngoingOperation mtaID v.host v.force = (wasAborted, some e)) :
    DeployRun env args
      ⟨deployChecked args b v c mtaArchivePath mtaID (wasAborted, some e), .returned .Failure⟩
  | notAborted (b : Bool) (v : OptionValues) (c : Context)
    (mtaArchive mtaArchivePath : String) (extDescriptorPaths : List String) (mtaID : String)
    (hi : DeployIdentified env args b v c mtaArchive mtaArchivePath extDescriptorPaths mtaID)
    (hchk : env.CheckOngoingOperation mtaID v.host v.force = (false, none)) :
    DeployRun env args
      ⟨deployChecked args b v c mtaArchivePath mtaID (false, none), .returned .Failure⟩
  | newSessionProviderFailed (b : Bool) (v : OptionValues) (c : Context)
    (mtaArchive mtaArchivePath : String) (extDescriptorPaths : List String) (mtaID e : String)
    (hi : DeployIdentified env args b v c mtaArchive mtaArchivePath extDescriptorPaths mtaID)
    (hchk : env.CheckOngoingOperation mtaID v.host v.force = (true, none))
    (hsp : env.NewSessionProvider v.host = some e) :
    DeployRun env args
      ⟨deployChecked args b v c mtaArchivePath mtaID (true, none) ++
        [.NewSessionProvider v.host], .returned .Failure⟩
  | getSessionFailed (b : Bool) (v : OptionValues) (c : Context)
    (mtaArchive mtaArchivePath : String) (extDescriptorPaths : List String) (mtaID e : String)
    (hi : DeployIdentified env args b v c mtaArchive mtaArchivePath extDescriptorPaths mtaID)
    (hchk : env.CheckOngoingOperation mtaID v.host v.force = (true, none))
    (hsp : env.NewSessionProvider v.host = none) (hgs : env.GetSession 0 = some e) :
    DeployRun env args
      ⟨deployChecked args b v c mtaArchivePath mtaID (true, none) ++
        [.NewSessionProvider v.host] ++ [.GetSession (some e)], .returned .Failure⟩
  | newMtaClientFailed (b : Bool) (v : OptionValues) (c : Context)
    (mtaArchive mtaArchivePath : String) (extDescriptorPaths : List String) (mtaID e : String)
    (hi : DeployIdentified env args b v c mtaArchive mtaArchivePath extDescriptorPaths mtaID)
    (hchk : env.CheckOngoingOperation mtaID v.host v.force = (true, none))
    (hsp : env.NewSessionProvider v.host = none) (hgs : env.GetSession 0 = none)
    (hmc : env.NewMtaClient v.host = some e) :
    DeployRun env args
      ⟨deployChecked args b v c mtaArchivePath mtaID (true, none) ++
        [.NewSessionProvider v.host] ++ [.GetSession none] ++ [.NewMtaClient v.host],
        .returned .Failure⟩
  | archiveUploadFailed (b : Bool) (v : OptionValues) (c : Context)
    (mtaArchive mtaArchivePath : String) (extDescriptorPaths : List String) (mtaID : String)
    (uploadedMtaArchives : List FileMetadata)
    (hc : DeployConnected env args b v c mtaArchive mtaArchivePath extDescriptorPaths mtaID)
    (hup : env.UploadFiles 0 [mtaArchivePath] = (uploadedMtaArchives, .Failure)) :
    DeployRun env args
      ⟨deployChecked args b v c mtaArchivePath mtaID (true, none) ++
        deployArchiveUpload v mtaArchivePath (uploadedMtaArchives, .Failure),
        .returned .Failure⟩
  | extDescriptorUploadFailed (b : Bool) (v : OptionValues) (c : Context)
    (mtaArchive mtaArchivePath : String) (extDescriptorPaths : List String) (mtaID : String)
    (uploadedMtaArchives : List FileMetadata)
    (hc : DeployConnected env args b v c mtaArchive mtaArchivePath extDescriptorPaths mtaID)
    (hup : env.UploadFiles 0 [mtaArchivePath] = (uploadedMtaArchives, .Success))
    (hux : uploadExtDescriptors env extDescriptorPaths = none) :
    DeployRun env args
      ⟨deployChecked args b v c mtaArchivePath mtaID (true, none) ++
        deployArchiveUpload v mtaArchivePath (uploadedMtaArchives, .Success) ++
        uploadExtDescriptorsCalls env extDescriptorPaths, .returned .Failure⟩
  | buildFailed (b : Bool) (v : OptionValues) (c : Context)
    (mtaArchive mtaArchivePath : String) (extDescriptorPaths : List String) (mtaID : String)
    (uploadedMtaArchives : List FileMetadata) (uploadedExtDescriptorIDs : List String)
    (error : ValidationError)
    (hu : DeployUploaded env args b v c mtaArchive mtaArchivePath extDescriptorPaths mtaID
      uploadedMtaArchives uploadedExtDescriptorIDs)
    (hb : KubernetesDeployCommand.buildOperation env v c
      (uploadedMtaArchives.map FileMetadata.ID) uploadedExtDescriptorIDs = .error error) :
    DeployRun env args
      ⟨deployUploadedCalls env args b v c mtaArchivePath extDescriptorPaths mtaID
        uploadedMtaArchives uploadedExtDescriptorIDs, .validationError error⟩
  | secondGetSessionFailed (b : Bool) (v : OptionValues) (c : Context)
    (mtaArchive mtaArchivePath : String) (extDescriptorPaths : List String) (mtaID : String)
    (uploadedMtaArchives : List FileMetadata) (uploadedExtDescriptorIDs : List String)
    (operation : Operation) (e : String)
    (hu : DeployUploaded env args b v c mtaArchive mtaArchivePath extDescriptorPaths mtaID
      uploadedMtaArchives uploadedExtDescriptorIDs)
    (hb : KubernetesDeployCommand.buildOperation env v c
      (uploadedMtaArchives.map FileMetadata.ID) uploadedExtDescriptorIDs = .ok operation)
    (hgs : env.GetSession 1 = some e) :
    DeployRun env args
      ⟨deployBuilt env args b v c mtaArchivePath extDescriptorPaths mtaID uploadedMtaArchives
        uploadedExtDescriptorIDs (some e), .returned .Failure⟩
  | startFailed (b : Bool) (v : OptionValues) (c : Context)
    (mtaArchive mtaArchivePath : String) (extDescriptorPaths : List String) (mtaID : String)
    (uploadedMtaArchives : List FileMetadata) (uploadedExtDescriptorIDs : List String)
    (operation : Operation) (e : String)
    (hu : DeployUploaded env args b v c mtaArchive mtaArchivePath extDescriptorPaths mtaID
      uploadedMtaArchives uploadedExtDescriptorIDs)
    (hb : KubernetesDeployCommand.buildOperation env v c
      (uploadedMtaArchives.map FileMetadata.ID) uploadedExtDescriptorIDs = .ok operation)
    (hgs : env.GetSession 1 = none)
    (hst : env.StartMtaOperation operation = .error e) :
    DeployRun env args
      ⟨deployBuilt env args b v c mtaArchivePath extDescriptorPaths mtaID uploadedMtaArchives
        uploadedExtDescriptorIDs none ++ [.StartMtaOperation operation],
        .returned .Failure⟩
  | monitored (b : Bool) (v : OptionValues) (c : Context)
    (mtaArchive mtaArchivePath : String) (extDescriptorPaths : List String) (mtaID : String)
    (uploadedMtaArchives : List FileMetadata) (uploadedExtDescriptorIDs : List String)
    (operation : Operation) (location : String)
    (hu : DeployUploaded env args b v c mtaArchive mtaArchivePath extDescriptorPaths mtaID
      uploadedMtaArchives uploadedExtDescriptorIDs)
    (hb : KubernetesDeployCommand.buildOperation env v c
      (uploadedMtaArchives.map FileMetadata.ID) uploadedExtDescriptorIDs = .ok operation)
    (hgs : env.GetSession 1 = none)
    (hst : env.StartMtaOperation operation = .ok location) :
    DeployRun env args
      ⟨deployBuilt env args b v c mtaArchivePath extDescriptorPaths mtaID uploadedMtaArchives
        uploadedExtDescriptorIDs none ++ [.StartMtaOperation operation] ++
        [.Monitor location], .returned (env.Monitor location)⟩

/-! ## The paths through `KubernetesUndeployCommand.Execute` -/

/-- The calls of a run of `KubernetesUndeployCommand.Execute` up to the one to
`ParseFlags`, whose result is `r`. -/
def undeployParsed (env : Env) (args : List String) (r : Except String OptionValues) :
    List Event :=
  [.CreateFlags none] ++ [.ContainsSpecificOptions args (env.ContainsSpecificOptions args)] ++
    [.ParseFlags args (positionalArgNames (env.ContainsSpecificOptions args).1 "MTA_ID") r]

/-- The calls of a run of `KubernetesUndeployCommand.Execute` that is not in
the action form, up to the one to `CheckOngoingOperation`, whose result is `r`. -/
def undeployChecked (env : Env) (args : List String) (v : OptionValues) (c : Context)
    (mtaID : String) (r : Bool × Option String) : List Event :=
  undeployParsed env args (.ok v) ++ [.GetContext (.ok c)] ++ confirmCalls env v.force mtaID ++
    [.NewMtaClient v.host] ++ [.CheckOngoingOperation mtaID v.host v.force r]

/-- The conditions under which `KubernetesUndeployCommand.Execute` reaches the
read of `args[0]` and finds `mtaID` there. -/
@[reducible] def UndeployArgument (env : Env) (args : List String) (v : OptionValues)
    (c : Context) (mtaID : String) : Prop :=
  env.CreateFlags = none ∧
  env.ParseFlags args (positionalArgNames (env.ContainsSpecificOptions args).1 "MTA_ID") = .ok v ∧
  env.GetContext = .ok c ∧ ¬(v.operationID ≠ "" ∨ v.action ≠ "") ∧ args.head? = some mtaID

/-- The conditions under which `KubernetesUndeployCommand.Execute` gets past
the conflict check. -/
@[reducible] def UndeployCleared (env : Env) (args : List String) (v : OptionValues)
    (c : Context) (mtaID : String) : Prop :=
  UndeployArgument env args v c mtaID ∧ ¬(!v.force && !env.Confirm mtaID) = true ∧
  env.NewMtaClient v.host = none ∧ env.CheckOngoingOperation mtaID v.host v.force = (true, none)

/-- The runs of `KubernetesUndeployCommand.Execute`, one constructor for each
path through the method. -/
inductive UndeployRun (env : Env) (args : List String) : Result → Prop where
  | createFlagsFailed (e : String) (hcf : env.CreateFlags = some e) :
    UndeployRun env args ⟨[.CreateFlags (some e)], .returned .Failure⟩
  | parseFlagsFailed (e : String) (hcf : env.CreateFlags = none)
    (hpf : env.ParseFlags args
      (positionalArgNames (env.ContainsSpecificOptions args).1 "MTA_ID") = .error e) :
    UndeployRun env args ⟨undeployParsed env args (.error e), .returned .Failure⟩
  | getContextFailed (v : OptionValues) (e : String) (hcf : env.CreateFlags = none)
    (hpf : env.ParseFlags args
      (positionalArgNames (env.ContainsSpecificOptions args).1 "MTA_ID") = .ok v)
    (hgc : env.GetContext = .error e) :
    UndeployRun env args
      ⟨undeployParsed env args (.ok v) ++ [.GetContext (.error e)], .returned .Failure⟩
  | action (v : OptionValues) (c : Context) (hcf : env.CreateFlags = none)
    (hpf : env.ParseFlags args
      (positionalArgNames (env.ContainsSpecificOptions args).1 "MTA_ID") = .ok v)
    (hgc : env.GetContext = .ok c) (hact : v.operationID ≠ "" ∨ v.action ≠ "") :
    UndeployRun env args
      ⟨undeployParsed env args (.ok v) ++ [.GetContext (.ok c)] ++
        [.ExecuteAction v.operationID v.action v.host
          (env.ExecuteAction v.operationID v.action v.host)],
        .returned (env.ExecuteAction v.operationID v.action v.host)⟩
  | noArgument (v : OptionValues) (c : Context) (hcf : env.CreateFlags = none)
    (hpf : env.ParseFlags args
      (positionalArgNames (env.ContainsSpecificOptions args).1 "MTA_ID") = .ok v)
    (hgc : env.GetContext = .ok c) (hact : ¬(v.operationID ≠ "" ∨ v.action ≠ ""))
    (harg : args.head? = none) :
    UndeployRun env args
      ⟨undeployParsed env args (.ok v) ++ [.GetContext (.ok c)], .indexOutOfRange⟩
  | cancelled (v : OptionValues) (c : Context) (mtaID : String)
    (ha : UndeployArgument env args v c mtaID)
    (hconf : (!v.force && !env.Confirm mtaID) = true) :
    UndeployRun env args
      ⟨undeployParsed env args (.ok v) ++ [.GetContext (.ok c)] ++ confirmCalls env v.force mtaID,
        .returned .Failure⟩
  | newMtaClientFailed (v : OptionValues) (c : Context) (mtaID e : String)
    (ha : UndeployArgument env args v c mtaID)
    (hconf : ¬(!v.force && !env.Confirm mtaID) = true)
    (hmc : env.NewMtaClient v.host = some e) :
    UndeployRun env args
      ⟨undeployParsed env args (.ok v) ++ [.GetContext (.ok c)] ++ confirmCalls env v.force mtaID
        ++ [.NewMtaClient v.host], .returned .Failure⟩
  | checkFailed (v : OptionValues) (c : Context) (mtaID e : String) (wasAborted : Bool)
    (ha : UndeployArgument env args v c mtaID)
    (hconf : ¬(!v.force && !env.Confirm mtaID) = true)
    (hmc : env.NewMtaClient v.host = none)
    (hchk : env.CheckOngoingOperation mtaID v.host v.force = (wasAborted, some e)) :
    UndeployRun env args
      ⟨undeployChecked env args v c mtaID (wasAborted, some e), .returned .Failure⟩
  | notAborted (v : OptionValues) (c : Context) (mtaID : String)
    (ha : UndeployArgument env args v c mtaID)
    (hconf : ¬(!v.force && !env.Confirm mtaID) = true)
    (hmc : env.NewMtaClient v.host = none)
    (hchk : env.CheckOngoingOperation mtaID v.host v.force = (false, none)) :
    UndeployRun env args
      ⟨undeployChecked env args v c mtaID (false, none), .returned .Failure⟩
  | newSessionProviderFailed (v : OptionValues) (c : Context) (mtaID e : String)
    (hc : UndeployCleared env args v c mtaID)
    (hsp : env.NewSessionProvider v.host = some e) :
    UndeployRun env args
      ⟨undeployChecked env args v c mtaID (true, none) ++ [.NewSessionProvider v.host],
        .returned .Failure⟩
  | getSessionFailed (v : OptionValues) (c : Context) (mtaID e : String)
    (hc : UndeployCleared env args v c mtaID)
    (hsp : env.NewSessionProvider v.host = none) (hgs : env.GetSession 0 = some e) :
    UndeployRun env args
      ⟨undeployChecked env args v c mtaID (true, none) ++ [.NewSessionProvider v.host] ++
        [.GetSession (some e)], .returned .Failure⟩
  | buildFailed (v : OptionValues) (c : Context) (mtaID : String) (error : ValidationError)
    (hc : UndeployCleared env args v c mtaID)
    (hsp : env.NewSessionProvider v.host = none) (hgs : env.GetSession 0 = none)
    (hb : KubernetesUndeployCommand.buildOperation mtaID = .error error) :
    UndeployRun env args
      ⟨undeployChecked env args v c mtaID (true, none) ++ [.NewSessionProvider v.host] ++
        [.GetSession none] ++ KubernetesUndeployCommand.buildCalls mtaID,
        .validationError error⟩
  | startFailed (v : OptionValues) (c : Context) (mtaID : String) (operation : Operation)
    (e : String)
    (hc : UndeployCleared env args v c mtaID)
    (hsp : env.NewSessionProvider v.host = none) (hgs : env.GetSession 0 = none)
    (hb : KubernetesUndeployCommand.buildOperation mtaID = .ok operation)
    (hst : env.StartMtaOperation operation = .error e) :
    UndeployRun env args
      ⟨undeployChecked env args v c mtaID (true, none) ++ [.NewSessionProvider v.host] ++
        [.GetSession none] ++ KubernetesUndeployCommand.buildCalls mtaID ++
        [.StartMtaOperation operation], .returned .Failure⟩
  | monitored (v : OptionValues) (c : Context) (mtaID : String) (operation : Operation)
    (location : String)
    (hc : UndeployCleared env args v c mtaID)
    (hsp : env.NewSessionProvider v.host = none) (hgs : env.GetSession 0 = none)
    (hb : KubernetesUndeployCommand.buildOperation mtaID = .ok operation)
    (hst : env.StartMtaOperation operation = .ok location) :
    UndeployRun env args
      ⟨undeployChecked env args v c mtaID (true, none) ++ [.NewSessionProvider v.host] ++
        [.GetSession none] ++ KubernetesUndeployCommand.buildCalls mtaID ++
        [.StartMtaOperation operation] ++
        [.GetSession (env.GetSession 1)] ++ [.Monitor location],
        .returned (env.Monitor location)⟩

/-- True on the calls on the process builder: its creation, `ProcessType`,
`Parameter`, `processParametersSetter` and `Build`. -/
def Call.isProcessBuilder : Call → Bool
  | .NewProcessBuilder => true
  | .ProcessType => true
  | .Parameter => true
  | .processParametersSetter => true
  | .Build => true
  | _ => false

/-! ## Sessions and start requests in a trace -/

/-- What a call means for the session token: a start request, a `GetSession`
that returned no error, a `GetSession` that failed, a call on the process
builder (which makes no request), or any other call. -/
inductive SessionStep where
  | start
  | sessionOk
  | sessionFailed
  | builder
  | other
  deriving DecidableEq, Repr

/-- What the call `e` means for the session token. -/
def Event.sessionStep : Event → SessionStep
  | .CreateFlags _ => .other
  | .ContainsSpecificOptions _ _ => .other
  | .ParseFlags _ _ _ => .other
  | .GetContext _ => .other
  | .ExecuteAction _ _ _ _ => .other
  | .Confirm _ _ => .other
  | .GetMtaIDFromArchive _ => .other
  | .CheckOngoingOperation _ _ _ _ => .other
  | .NewSessionProvider _ => .other
  | .GetSession none => .sessionOk
  | .GetSession (some _) => .sessionFailed
  | .NewMtaClient _ => .other
  | .UploadFiles _ _ => .other
  | .NewProcessBuilder => .builder
  | .ProcessType _ => .builder
  | .Parameter _ _ => .builder
  | .processParametersSetter => .builder
  | .Build => .builder
  | .StartMtaOperation _ => .start
  | .Monitor _ => .other

/-- Scans the calls of a run: `fresh` tells whether the last call so far that
is not on the process builder is a `GetSession` that returned no error; the
result tells whether every start request comes when `fresh` is true. -/
def sessionFresh : Bool → List SessionStep → Bool
  | _, [] => true
  | fresh, .start :: l => fresh && sessionFresh false l
  | _, .sessionOk :: l => sessionFresh true l
  | _, .sessionFailed :: l => sessionFresh false l
  | fresh, .builder :: l => sessionFresh fresh l
  | _, .other :: l => sessionFresh false l

/-- Scans the calls of a run: tells whether a `GetSession` fails before any
start request is made. -/
def sessionFailedFirst : List SessionStep → Bool
  | [] => false
  | .start :: _ => false
  | .sessionFailed :: _ => true
  | .sessionOk :: l => sessionFailedFirst l
  | .builder :: l => sessionFailedFirst l
  | .other :: l => sessionFailedFirst l

/-! ## Example environments -/

/-- A run in which the command line parses to `v` (with no error in the
option-pair check, which answers `b`) and every collaborator succeeds: paths
are already absolute, the archive holds the MTA id `"my-mta"`, no operation is
in the way, each uploaded file gets its path as identifier, and the started
process finishes. -/
def exampleEnv (b : Bool) (v : OptionValues) : Env where
  CreateFlags := none
  ContainsSpecificOptions := fun _ => (b, none)
  ParseFlags := fun args positionalArgNames =>
    if positionalArgNames.length ≤ args.length then .ok v
    else .error "Missing positional argument"
  GetContext := .ok ⟨"org", "space", "user"⟩
  ExecuteAction := fun _ _ _ => .Success
  Confirm := fun _ => true
  Abs := fun path => .ok path
  GetMtaIDFromArchive := fun _ => .ok "my-mta"
  CheckOngoingOperation := fun _ _ _ => (true, none)
  NewSessionProvider := fun _ => none
  GetSession := fun _ => none
  NewMtaClient := fun _ => none
  UploadFiles := fun _ files => (files.map FileMetadata.mk, .Success)
  processParametersSetter := fun _ processBuilder => processBuilder
  StartMtaOperation := fun _ => .ok "operations/op-1"
  Monitor := fun _ => .Success

/-- Option values of a command line without options. -/
def noOptions : OptionValues :=
  ⟨"", "", "", "", false, []⟩

/-- Option values of a command line with `-f` only. -/
def forceOption : OptionValues :=
  ⟨"", "", "", "", true, []⟩

/-- A run without options in which the operator declines to abort the
conflicting operation. -/
def decliningEnv : Env :=
  { exampleEnv false noOptions with
    CheckOngoingOperation := fun _ _ _ => (false, none) }

/-- A run with `-f` in which the conflicting operation is not aborted. -/
def decliningForcedEnv : Env :=
  { exampleEnv false forceOption with
    CheckOngoingOperation := fun _ _ _ => (false, none) }

/-- Option values of the command line `-i op-1 -a abort`. -/
def abortOptions : OptionValues :=
  ⟨"", "", "op-1", "abort", false, []⟩

/-- A run without options in which the upload of the archive fails. -/
def uploadFailingEnv : Env :=
  { exampleEnv false noOptions with
    UploadFiles := fun _ _ => ([], .Failure) }

/-- A run without options in which the operator answers the confirmation
prompt with no. -/
def refusingEnv : Env :=
  { exampleEnv false noOptions with
    Confirm := fun _ => false }

/-- Option values of the command line `app.mtar -e a.mtaext,b.mtaext`. -/
def twoDescriptors : OptionValues :=
  ⟨"", "a.mtaext,b.mtaext", "", "", false, []⟩

/-- A run of `k8s-undeploy my-mta -i op-1`: the option-pair check reports that
`-i` came without `-a`, and the flags parse to the operation id `"op-1"`. -/
def lonelyOperationIDEnv : Env :=
  { exampleEnv false ⟨"", "", "op-1", "", false, []⟩ with
    ContainsSpecificOptions := fun _ =>
      (false, some "All the a i options should be specified together") }

/-- The arguments of the command line `app.mtar -e a.mtaext,b.mtaext`. -/
def twoDescriptorsArgs : List String :=
  ["app.mtar", "-e", "a.mtaext,b.mtaext"]

/-- A run of `k8s-deploy app.mtar -e a.mtaext,b.mtaext` in which every
collaborator succeeds. -/
def twoDescriptorsEnv : Env :=
  exampleEnv false twoDescriptors

/-! ## Every run follows a path -/

/-- Every run of `KubernetesDeployCommand.Execute` follows one of the paths of
`DeployRun`. -/
theorem deploy_run (env : Env) (args : List String) :
    DeployRun env args (KubernetesDeployCommand.Execute env args) := by
  unfold KubernetesDeployCommand.Execute
  simp only []
  split
  · simp only [*]; exact DeployRun.createFlagsFailed _ ‹_›
  split
  · simp only [*]; apply DeployRun.optionsCheckFailed <;> assumption
  split
  · simp only [*]; apply DeployRun.parseFlagsFailed <;> assumption
  split
  · simp only [*]; apply DeployRun.getContextFailed <;> assumption
  split
  · simp only [*]; apply DeployRun.action <;> assumption
  split
  · simp only [*]; apply DeployRun.noArgument <;> assumption
  split
  · simp only [*]; apply DeployRun.absFailed <;> repeat' (first | assumption | constructor)
  split
  · simp only [*]; apply DeployRun.extDescriptorAbsFailed <;>
      repeat' (first | assumption | constructor)
  split
  · simp only [*]; apply DeployRun.getMtaIDFailed <;>
      repeat' (first | assumption | constructor)
  split
  · simp only [*]; apply DeployRun.checkFailed <;> repeat' (first | assumption | constructor)
  · simp only [*]; apply DeployRun.notAborted <;> repeat' (first | assumption | constructor)
  split
  · simp only [*]; apply DeployRun.newSessionProviderFailed <;>
      repeat' (first | assumption | constructor)
  split
  · simp only [*]; apply DeployRun.getSessionFailed <;>
      repeat' (first | assumption | constructor)
  split
  · simp only [*]; apply DeployRun.newMtaClientFailed <;>
      repeat' (first | assumption | constructor)
  split
  · simp only [*]; apply DeployRun.archiveUploadFailed <;>
      repeat' (first | assumption | constructor)
  split
  · simp only [*]; apply DeployRun.extDescriptorUploadFailed <;>
      repeat' (first | assumption | constructor)
  split
  · simp only [*]; apply DeployRun.buildFailed <;>
      repeat' (first | assumption | constructor)
  split
  · simp only [*]; apply DeployRun.secondGetSessionFailed <;>
      repeat' (first | assumption | constructor)
  split
  · simp only [*]; apply DeployRun.startFailed <;> repeat' (first | assumption | constructor)
  · simp only [*]; apply DeployRun.monitored <;> repeat' (first | assumption | constructor)

/-- Every run of `KubernetesUndeployCommand.Execute` follows one of the paths
of `UndeployRun`. -/
theorem undeploy_run (env : Env) (args : List String) :
    UndeployRun env args (KubernetesUndeployCommand.Execute env args) := by
  unfold KubernetesUndeployCommand.Execute
  simp only []
  split
  · simp only [*]; exact UndeployRun.createFlagsFailed _ ‹_›
  split
  · simp only [*]; apply UndeployRun.parseFlagsFailed <;> assumption
  split
  · simp only [*]; apply UndeployRun.getContextFailed <;> assumption
  split
  · simp only [*]; apply UndeployRun.action <;> assumption
  split
  · simp only [*]; apply UndeployRun.noArgument <;> assumption
  split
  · simp only [*]; apply UndeployRun.cancelled <;> repeat' (first | assumption | constructor)
  split
  · simp only [*]; apply UndeployRun.newMtaClientFailed <;>
      repeat' (first | assumption | constructor)
  split
  · simp only [*]; apply UndeployRun.checkFailed <;> repeat' (first | assumption | constructor)
  · simp only [*]; apply UndeployRun.notAborted <;> repeat' (first | assumption | constructor)
  split
  · simp only [*]; apply UndeployRun.newSessionProviderFailed <;>
      repeat' (first | assumption | constructor)
  split
  · simp only [*]; apply UndeployRun.getSessionFailed <;>
      repeat' (first | assumption | constructor)
  split
  · simp only [*]; apply UndeployRun.buildFailed <;> repeat' (first | assumption | constructor)
  split
  · simp only [*]; apply UndeployRun.startFailed <;> repeat' (first | assumption | constructor)
  · simp only [*]; apply UndeployRun.monitored <;> repeat' (first | assumption | constructor)

/-! ## The split of the `-e` value -/

/-- The split on `,` at a few values: as `strings.Split` does, it keeps empty
pieces and gives the whole string when there is no separator. -/
theorem stringsSplit_examples :
    stringsSplit "a.mtaext,b.mtaext" ',' = ["a.mtaext", "b.mtaext"] ∧
    stringsSplit "a,,b" ',' = ["a", "", "b"] ∧
    stringsSplit "a," ',' = ["a", ""] ∧
    stringsSplit "a" ',' = ["a"] ∧
    stringsSplit "" ',' = [""] := by
  decide

/-! ## The upload of the extension descriptors -/

/-- When the block "Upload the extension descriptor files" returns `Failure`,
there was a path and the upload of the paths failed. -/
theorem uploadExtDescriptors_eq_none (env : Env) (paths : List String)
    (h : uploadExtDescriptors env paths = none) :
    paths ≠ [] ∧ ∃ files, env.UploadFiles 1 paths = (files, .Failure) := by
  unfold uploadExtDescriptors at h
  split at h
  · next hlen =>
    refine ⟨by intro hp; simp [hp] at hlen, ?_⟩
    split at h
    · next files heq => exact ⟨files, heq⟩
    · simp at h
  · simp at h

/-- When the block "Upload the extension descriptor files" goes through, either
there was no path, or the upload of the paths succeeded and its identifiers are
the result. -/
theorem uploadExtDescriptors_eq_some (env : Env) (paths ids : List String)
    (h : uploadExtDescriptors env paths = some ids) :
    (paths = [] ∧ ids = []) ∨
    (paths ≠ [] ∧ ∃ files, env.UploadFiles 1 paths = (files, .Success) ∧
      ids = files.map FileMetadata.ID) := by
  unfold uploadExtDescriptors at h
  split at h
  · next hlen =>
    right
    refine ⟨by intro hp; simp [hp] at hlen, ?_⟩
    split at h
    · simp at h
    · next files heq =>
      simp only [Option.some.injEq] at h
      exact ⟨files, heq, h.symm⟩
  · next hlen =>
    left
    simp only [Option.some.injEq] at h
    refine ⟨?_, h.symm⟩
    cases paths with
    | nil => rfl
    | cons a l => simp at hlen

/-! ## Sessions and start requests in a trace -/

/-- The calls that count as start requests are the `StartMtaOperation` calls. -/
theorem sessionStep_eq_start (e : Event) :
    e.sessionStep = .start ↔ e.call = .StartMtaOperation := by
  cases e <;> simp [Event.sessionStep, Event.call]
  next o => cases o <;> simp [Event.sessionStep]

/-- The calls that count as calls on the process builder are those of
`Call.isProcessBuilder`. -/
theorem sessionStep_eq_builder (e : Event) :
    e.sessionStep = .builder ↔ e.call.isProcessBuilder = true := by
  cases e <;> simp [Event.sessionStep, Event.call, Call.isProcessBuilder]
  next o => cases o <;> simp [Event.sessionStep]

/-- The calls that count as a successful `GetSession`. -/
theorem sessionStep_eq_sessionOk (e : Event) :
    e.sessionStep = .sessionOk ↔ e = .GetSession none := by
  cases e <;> simp [Event.sessionStep]
  next o => cases o <;> simp [Event.sessionStep]

/-- The calls that count as a failed `GetSession`. -/
theorem sessionStep_eq_sessionFailed (e : Event) :
    e.sessionStep = .sessionFailed ↔ ∃ err, e = .GetSession (some err) := by
  cases e <;> simp [Event.sessionStep]
  next o => cases o <;> simp [Event.sessionStep]

/-- When the scan `sessionFresh` accepts a trace, each start request in it
comes after a successful `GetSession` with only calls on the process builder
in between. -/
theorem sessionFresh_sound (l : List Event) :
    ∀ (fresh : Bool), sessionFresh fresh (l.map Event.sessionStep) = true →
    ∀ (pre post : List Event) (op : Operation), l = pre ++ Event.StartMtaOperation op :: post →
      (∃ pre₁ mid, pre = pre₁ ++ Event.GetSession none :: mid ∧
        ∀ e ∈ mid, e.call.isProcessBuilder = true) ∨
      (fresh = true ∧ ∀ e ∈ pre, e.call.isProcessBuilder = true) := by
  induction l with
  | nil => intro fresh _ pre post op h; simp at h
  | cons a l ih =>
    intro fresh hc pre post op h
    cases pre with
    | nil =>
      simp only [List.nil_append, List.cons.injEq] at h
      obtain ⟨rfl, rfl⟩ := h
      simp only [List.map_cons, Event.sessionStep, sessionFresh, Bool.and_eq_true] at hc
      exact Or.inr ⟨hc.1, by simp⟩
    | cons b pre₂ =>
      simp only [List.cons_append, List.cons.injEq] at h
      obtain ⟨rfl, rfl⟩ := h
      simp only [List.map_cons] at hc
      have extend : ∀ fresh₂, sessionFresh fresh₂
          ((pre₂ ++ Event.StartMtaOperation op :: post).map Event.sessionStep) = true →
          (fresh₂ = true → (a = Event.GetSession none ∨
            (fresh = true ∧ a.call.isProcessBuilder = true))) →
          (∃ pre₁ mid, a :: pre₂ = pre₁ ++ Event.GetSession none :: mid ∧
            ∀ e ∈ mid, e.call.isProcessBuilder = true) ∨
          (fresh = true ∧ ∀ e ∈ a :: pre₂, e.call.isProcessBuilder = true) := by
        intro fresh₂ hc₂ hf
        rcases ih fresh₂ hc₂ pre₂ post op rfl with ⟨pre₁, mid, hpre, hmid⟩ | ⟨hfr, hall⟩
        · exact Or.inl ⟨a :: pre₁, mid, by simp [hpre], hmid⟩
        · rcases hf hfr with rfl | ⟨hfresh, ha⟩
          · exact Or.inl ⟨[], pre₂, by simp, hall⟩
          · refine Or.inr ⟨hfresh, ?_⟩
            intro e he
            rcases List.mem_cons.mp he with rfl | he
            · exact ha
            · exact hall e he
      cases hs : a.sessionStep with
      | start =>
        simp only [hs, sessionFresh, Bool.and_eq_true] at hc
        exact extend false hc.2 (by simp)
      | sessionOk =>
        simp only [hs, sessionFresh] at hc
        exact extend true hc (fun _ => Or.inl ((sessionStep_eq_sessionOk a).mp hs))
      | sessionFailed =>
        simp only [hs, sessionFresh] at hc
        exact extend false hc (by simp)
      | builder =>
        simp only [hs, sessionFresh] at hc
        exact extend fresh hc
          (fun hf => Or.inr ⟨hf, (sessionStep_eq_builder a).mp hs⟩)
      | other =>
        simp only [hs, sessionFresh] at hc
        exact extend false hc (by simp)

/-- When a `GetSession` fails in a trace with no start request before it, the
scan `sessionFailedFirst` finds it. -/
theorem sessionFailedFirst_of_split (pre post : List Event) (err : String)
    (hpre : Call.StartMtaOperation ∉ pre.map Event.call) :
    sessionFailedFirst ((pre ++ Event.GetSession (some err) :: post).map Event.sessionStep)
      = true := by
  induction pre with
  | nil => simp [Event.sessionStep, sessionFailedFirst]
  | cons a pre ih =>
    simp only [List.map_cons, List.mem_cons, not_or] at hpre
    have ih := ih hpre.2
    have ha : a.sessionStep ≠ .start := fun h => hpre.1 ((sessionStep_eq_start a).mp h).symm
    simp only [List.cons_append, List.map_cons]
    cases hs : a.sessionStep with
    | start => exact absurd hs ha
    | sessionOk => simpa [sessionFailedFirst] using ih
    | sessionFailed => simp [sessionFailedFirst]
    | builder => simpa [sessionFailedFirst] using ih
    | other => simpa [sessionFailedFirst] using ih

/-! ## The claims -/

/-- The conflict gate of `KubernetesDeployCommand.Execute`. -/
theorem deploy_gate (env : Env) (args : List String) (mtaID host : String)
    (force : Bool) (result : Bool × Option String) (hres : result ≠ (true, none))
    (h : Event.CheckOngoingOperation mtaID host force result ∈
      (KubernetesDeployCommand.Execute env args).trace) :
    (KubernetesDeployCommand.Execute env args).outcome = .returned .Failure ∧
    Call.UploadFiles ∉ (KubernetesDeployCommand.Execute env args).calls ∧
    Call.StartMtaOperation ∉ (KubernetesDeployCommand.Execute env args).calls := by
  have hp := deploy_run env args
  generalize KubernetesDeployCommand.Execute env args = r at hp h ⊢
  cases hp <;>
    simp only [deployParsed, deployChecked, deployBuilt, deployUploadedCalls, deployArchiveUpload,
      uploadExtDescriptorsCalls, KubernetesDeployCommand.buildCalls, Result.calls] at h ⊢ <;>
    (try split_ifs at h ⊢) <;>
    simp [Event.call] at h ⊢ <;> simp_all

/-- The conflict gate of `KubernetesUndeployCommand.Execute`. -/
theorem undeploy_gate (env : Env) (args : List String) (mtaID host : String)
    (force : Bool) (result : Bool × Option String) (hres : result ≠ (true, none))
    (h : Event.CheckOngoingOperation mtaID host force result ∈
      (KubernetesUndeployCommand.Execute env args).trace) :
    (KubernetesUndeployCommand.Execute env args).outcome = .returned .Failure ∧
    Call.UploadFiles ∉ (KubernetesUndeployCommand.Execute env args).calls ∧
    Call.StartMtaOperation ∉ (KubernetesUndeployCommand.Execute env args).calls := by
  have hp := undeploy_run env args
  generalize KubernetesUndeployCommand.Execute env args = r at hp h ⊢
  cases hp <;>
    simp only [undeployParsed, undeployChecked, confirmCalls,
      KubernetesUndeployCommand.buildCalls, Result.calls] at h ⊢ <;>
    (try split_ifs at h ⊢) <;>
    simp [Event.call] at h ⊢ <;> simp_all

/-- C1, conflict gate: in a run of either command that reaches
`CheckOngoingOperation(mtaID, host, force)`, unless that call returns
`(true, nil)` the command returns `Failure`, and the run holds no file upload
and no `StartMtaOperation` call. -/
theorem conflict_gate (env : Env) (args : List String) (mtaID host : String) (force : Bool)
    (result : Bool × Option String) (hres : result ≠ (true, none)) :
    (Event.CheckOngoingOperation mtaID host force result ∈
        (KubernetesDeployCommand.Execute env args).trace →
      (KubernetesDeployCommand.Execute env args).outcome = .returned .Failure ∧
      Call.UploadFiles ∉ (KubernetesDeployCommand.Execute env args).calls ∧
      Call.StartMtaOperation ∉ (KubernetesDeployCommand.Execute env args).calls) ∧
    (Event.CheckOngoingOperation mtaID host force result ∈
        (KubernetesUndeployCommand.Execute env args).trace →
      (KubernetesUndeployCommand.Execute env args).outcome = .returned .Failure ∧
      Call.UploadFiles ∉ (KubernetesUndeployCommand.Execute env args).calls ∧
      Call.StartMtaOperation ∉ (KubernetesUndeployCommand.Execute env args).calls) :=
  ⟨deploy_gate env args mtaID host force result hres,
    undeploy_gate env args mtaID host force result hres⟩

/-- C1 at `k8s-deploy app.mtar`, where the operator declines to abort the
conflicting operation, and at `k8s-undeploy my-mta -f`, where the conflicting
operation is not aborted. -/
theorem conflict_gate_witness :
    ((KubernetesDeployCommand.Execute decliningEnv ["app.mtar"]).outcome = .returned .Failure ∧
      Call.UploadFiles ∉ (KubernetesDeployCommand.Execute decliningEnv ["app.mtar"]).calls ∧
      Call.StartMtaOperation ∉
        (KubernetesDeployCommand.Execute decliningEnv ["app.mtar"]).calls) ∧
    ((KubernetesUndeployCommand.Execute decliningForcedEnv ["my-mta", "-f"]).outcome =
        .returned .Failure ∧
      Call.UploadFiles ∉
        (KubernetesUndeployCommand.Execute decliningForcedEnv ["my-mta", "-f"]).calls ∧
      Call.StartMtaOperation ∉
        (KubernetesUndeployCommand.Execute decliningForcedEnv ["my-mta", "-f"]).calls) :=
  ⟨(conflict_gate decliningEnv ["app.mtar"] "my-mta" "" false (false, none) (by decide)).1
      (by simp [KubernetesDeployCommand.Execute, decliningEnv, exampleEnv, noOptions,
        positionalArgNames, getExtDescriptorPaths]),
    (conflict_gate decliningForcedEnv ["my-mta", "-f"] "my-mta" "" true (false, none) (by decide)).2
      (by simp [KubernetesUndeployCommand.Execute, decliningForcedEnv, exampleEnv, forceOption,
        positionalArgNames, confirmCalls])⟩

/-- The action form of `KubernetesDeployCommand.Execute`. -/
theorem deploy_action_run (env : Env) (args positionalArgNames : List String)
    (v : OptionValues) (c : Context) (hact : v.operationID ≠ "" ∨ v.action ≠ "")
    (hpf : Event.ParseFlags args positionalArgNames (.ok v) ∈
      (KubernetesDeployCommand.Execute env args).trace)
    (hgc : Event.GetContext (.ok c) ∈ (KubernetesDeployCommand.Execute env args).trace) :
    (KubernetesDeployCommand.Execute env args).outcome =
      .returned (env.ExecuteAction v.operationID v.action v.host) ∧
    Event.ExecuteAction v.operationID v.action v.host
      (env.ExecuteAction v.operationID v.action v.host) ∈
      (KubernetesDeployCommand.Execute env args).trace ∧
    (KubernetesDeployCommand.Execute env args).calls =
      [.CreateFlags, .ContainsSpecificOptions, .ParseFlags, .GetContext, .ExecuteAction] := by
  have hp := deploy_run env args
  generalize KubernetesDeployCommand.Execute env args = r at hp hpf hgc ⊢
  cases hp <;>
    simp only [deployParsed, deployChecked, deployBuilt, deployUploadedCalls, deployArchiveUpload,
      uploadExtDescriptorsCalls, KubernetesDeployCommand.buildCalls, Result.calls]
      at hpf hgc ⊢ <;>
    (try split_ifs at hpf hgc ⊢) <;>
    simp [Event.call] at hpf hgc ⊢ <;> simp_all

/-- The action form of `KubernetesUndeployCommand.Execute`. -/
theorem undeploy_action_run (env : Env) (args positionalArgNames : List String)
    (v : OptionValues) (c : Context) (hact : v.operationID ≠ "" ∨ v.action ≠ "")
    (hpf : Event.ParseFlags args positionalArgNames (.ok v) ∈
      (KubernetesUndeployCommand.Execute env args).trace)
    (hgc : Event.GetContext (.ok c) ∈ (KubernetesUndeployCommand.Execute env args).trace) :
    (KubernetesUndeployCommand.Execute env args).outcome =
      .returned (env.ExecuteAction v.operationID v.action v.host) ∧
    Event.ExecuteAction v.operationID v.action v.host
      (env.ExecuteAction v.operationID v.action v.host) ∈
      (KubernetesUndeployCommand.Execute env args).trace ∧
    (KubernetesUndeployCommand.Execute env args).calls =
      [.CreateFlags, .ContainsSpecificOptions, .ParseFlags, .GetContext, .ExecuteAction] := by
  have hp := undeploy_run env args
  generalize KubernetesUndeployCommand.Execute env args = r at hp hpf hgc ⊢
  cases hp <;>
    simp only [undeployParsed, undeployChecked, confirmCalls,
      KubernetesUndeployCommand.buildCalls, Result.calls] at hpf hgc ⊢ <;>
    (try split_ifs at hpf hgc ⊢) <;>
    simp [Event.call] at hpf hgc ⊢ <;> simp_all

/-- A list of calls that holds exactly the five calls of the action form holds
no confirmation prompt, no conflict check, no upload, no call on the process
builder and no start request. -/
theorem action_calls_only (calls : List Call)
    (h : calls = [.CreateFlags, .ContainsSpecificOptions, .ParseFlags, .GetContext,
      .ExecuteAction]) :
    calls.count .ExecuteAction = 1 ∧ Call.Confirm ∉ calls ∧
    Call.CheckOngoingOperation ∉ calls ∧ Call.UploadFiles ∉ calls ∧
    (∀ k ∈ calls, k.isProcessBuilder = false) ∧ Call.StartMtaOperation ∉ calls := by
  subst h
  decide

/-- The action form of `KubernetesDeployCommand.Execute`, from the results of
the collaborators: the run and its status. -/
theorem deploy_action_reached (env : Env) (args : List String) (v : OptionValues)
    (c : Context) (hact : v.operationID ≠ "" ∨ v.action ≠ "")
    (hcf : env.CreateFlags = none) (hso : (env.ContainsSpecificOptions args).2 = none)
    (hpf : env.ParseFlags args
      (positionalArgNames (env.ContainsSpecificOptions args).1 "MTA") = .ok v)
    (hgc : env.GetContext = .ok c) :
    KubernetesDeployCommand.Execute env args =
      ⟨[.CreateFlags none,
        .ContainsSpecificOptions args (env.ContainsSpecificOptions args),
        .ParseFlags args (positionalArgNames (env.ContainsSpecificOptions args).1 "MTA")
          (.ok v),
        .GetContext (.ok c),
        .ExecuteAction v.operationID v.action v.host
          (env.ExecuteAction v.operationID v.action v.host)],
        .returned (env.ExecuteAction v.operationID v.action v.host)⟩ := by
  rcases hx : env.ContainsSpecificOptions args with ⟨b, o⟩
  rw [hx] at hso hpf
  simp only at hso hpf
  subst hso
  simp only [KubernetesDeployCommand.Execute, hcf, hx, hpf, hgc, hact, if_true]
  rfl

/-- The action form of `KubernetesUndeployCommand.Execute`, from the results
of the collaborators: the run and its status. -/
theorem undeploy_action_reached (env : Env) (args : List String) (v : OptionValues)
    (c : Context) (hact : v.operationID ≠ "" ∨ v.action ≠ "")
    (hcf : env.CreateFlags = none)
    (hpf : env.ParseFlags args
      (positionalArgNames (env.ContainsSpecificOptions args).1 "MTA_ID") = .ok v)
    (hgc : env.GetContext = .ok c) :
    KubernetesUndeployCommand.Execute env args =
      ⟨[.CreateFlags none,
        .ContainsSpecificOptions args (env.ContainsSpecificOptions args),
        .ParseFlags args (positionalArgNames (env.ContainsSpecificOptions args).1 "MTA_ID")
          (.ok v),
        .GetContext (.ok c),
        .ExecuteAction v.operationID v.action v.host
          (env.ExecuteAction v.operationID v.action v.host)],
        .returned (env.ExecuteAction v.operationID v.action v.host)⟩ := by
  simp only [KubernetesUndeployCommand.Execute, hcf, hpf, hgc, hact, if_true]
  rfl

/-- C2, action form: in a run of either command in which `ParseFlags` and
`GetContext` succeed and the parsed operation id or the parsed action is not
empty, `Execute` returns the status of the one call
`ExecuteAction(operationID, action, host)` on the parsed values, and the run
holds no confirmation prompt, no `CheckOngoingOperation`, no file upload, no
call on the process builder and no `StartMtaOperation`.  Both commands do
reach that call: when `CreateFlags` gives no error (for `k8s-deploy`: nor does
the option-pair check), `ParseFlags` gives the option values `v` and
`GetContext` gives a context, the run is exactly `CreateFlags`,
`ContainsSpecificOptions`, `ParseFlags`, `GetContext`, `ExecuteAction`, and its
status is that of `ExecuteAction`. -/
theorem action_form (env : Env) (args positionalArgNames : List String)
    (v : OptionValues) (c : Context) (hact : v.operationID ≠ "" ∨ v.action ≠ "") :
    ((Event.ParseFlags args positionalArgNames (.ok v) ∈
          (KubernetesDeployCommand.Execute env args).trace →
        Event.GetContext (.ok c) ∈ (KubernetesDeployCommand.Execute env args).trace →
        (KubernetesDeployCommand.Execute env args).outcome =
          .returned (env.ExecuteAction v.operationID v.action v.host) ∧
        Event.ExecuteAction v.operationID v.action v.host
          (env.ExecuteAction v.operationID v.action v.host) ∈
          (KubernetesDeployCommand.Execute env args).trace ∧
        (KubernetesDeployCommand.Execute env args).calls.count .ExecuteAction = 1 ∧
        Call.Confirm ∉ (KubernetesDeployCommand.Execute env args).calls ∧
        Call.CheckOngoingOperation ∉ (KubernetesDeployCommand.Execute env args).calls ∧
        Call.UploadFiles ∉ (KubernetesDeployCommand.Execute env args).calls ∧
        (∀ k ∈ (KubernetesDeployCommand.Execute env args).calls, k.isProcessBuilder = false) ∧
        Call.StartMtaOperation ∉ (KubernetesDeployCommand.Execute env args).calls) ∧
      (env.CreateFlags = none → (env.ContainsSpecificOptions args).2 = none →
        env.ParseFlags args
          (commands.positionalArgNames (env.ContainsSpecificOptions args).1 "MTA") = .ok v →
        env.GetContext = .ok c →
        KubernetesDeployCommand.Execute env args =
          ⟨[.CreateFlags none,
            .ContainsSpecificOptions args (env.ContainsSpecificOptions args),
            .ParseFlags args
              (commands.positionalArgNames (env.ContainsSpecificOptions args).1 "MTA") (.ok v),
            .GetContext (.ok c),
            .ExecuteAction v.operationID v.action v.host
              (env.ExecuteAction v.operationID v.action v.host)],
            .returned (env.ExecuteAction v.operationID v.action v.host)⟩)) ∧
    ((Event.ParseFlags args positionalArgNames (.ok v) ∈
          (KubernetesUndeployCommand.Execute env args).trace →
        Event.GetContext (.ok c) ∈ (KubernetesUndeployCommand.Execute env args).trace →
        (KubernetesUndeployCommand.Execute env args).outcome =
          .returned (env.ExecuteAction v.operationID v.action v.host) ∧
        Event.ExecuteAction v.operationID v.action v.host
          (env.ExecuteAction v.operationID v.action v.host) ∈
          (KubernetesUndeployCommand.Execute env args).trace ∧
        (KubernetesUndeployCommand.Execute env args).calls.count .ExecuteAction = 1 ∧
        Call.Confirm ∉ (KubernetesUndeployCommand.Execute env args).calls ∧
        Call.CheckOngoingOperation ∉ (KubernetesUndeployCommand.Execute env args).calls ∧
        Call.UploadFiles ∉ (KubernetesUndeployCommand.Execute env args).calls ∧
        (∀ k ∈ (KubernetesUndeployCommand.Execute env args).calls,
          k.isProcessBuilder = false) ∧
        Call.StartMtaOperation ∉ (KubernetesUndeployCommand.Execute env args).calls) ∧
      (env.CreateFlags = none →
        env.ParseFlags args
          (commands.positionalArgNames (env.ContainsSpecificOptions args).1 "MTA_ID") = .ok v →
        env.GetContext = .ok c →
        KubernetesUndeployCommand.Execute env args =
          ⟨[.CreateFlags none,
            .ContainsSpecificOptions args (env.ContainsSpecificOptions args),
            .ParseFlags args
              (commands.positionalArgNames (env.ContainsSpecificOptions args).1 "MTA_ID")
              (.ok v),
            .GetContext (.ok c),
            .ExecuteAction v.operationID v.action v.host
              (env.ExecuteAction v.operationID v.action v.host)],
            .returned (env.ExecuteAction v.operationID v.action v.host)⟩)) := by
  refine ⟨⟨?_, ?_⟩, ⟨?_, ?_⟩⟩
  · intro hpf hgc
    obtain ⟨h1, h2, h3⟩ := deploy_action_run env args positionalArgNames v c hact hpf hgc
    exact ⟨h1, h2, action_calls_only _ h3⟩
  · intro hcf hso hpf hgc
    exact deploy_action_reached env args v c hact hcf hso hpf hgc
  · intro hpf hgc
    obtain ⟨h1, h2, h3⟩ := undeploy_action_run env args positionalArgNames v c hact hpf hgc
    exact ⟨h1, h2, action_calls_only _ h3⟩
  · intro hcf hpf hgc
    exact undeploy_action_reached env args v c hact hcf hpf hgc

/-- C2 at `k8s-deploy -i op-1 -a abort` and at `k8s-undeploy -i op-1 -a abort`:
each run is the five calls up to `ExecuteAction("op-1", "abort", host)` and
returns its status, and the deploy run holds no upload and no start request. -/
theorem action_form_witness :
    (KubernetesDeployCommand.Execute (exampleEnv true abortOptions)
        ["-i", "op-1", "-a", "abort"] =
      ⟨[.CreateFlags none, .ContainsSpecificOptions ["-i", "op-1", "-a", "abort"] (true, none),
        .ParseFlags ["-i", "op-1", "-a", "abort"] [] (.ok abortOptions),
        .GetContext (.ok ⟨"org", "space", "user"⟩),
        .ExecuteAction "op-1" "abort" "" .Success], .returned .Success⟩ ∧
      Call.UploadFiles ∉ (KubernetesDeployCommand.Execute (exampleEnv true abortOptions)
        ["-i", "op-1", "-a", "abort"]).calls ∧
      Call.StartMtaOperation ∉ (KubernetesDeployCommand.Execute (exampleEnv true abortOptions)
        ["-i", "op-1", "-a", "abort"]).calls) ∧
    (KubernetesUndeployCommand.Execute (exampleEnv true abortOptions)
        ["-i", "op-1", "-a", "abort"] =
      ⟨[.CreateFlags none, .ContainsSpecificOptions ["-i", "op-1", "-a", "abort"] (true, none),
        .ParseFlags ["-i", "op-1", "-a", "abort"] [] (.ok abortOptions),
        .GetContext (.ok ⟨"org", "space", "user"⟩),
        .ExecuteAction "op-1" "abort" "" .Success], .returned .Success⟩ ∧
      Call.UploadFiles ∉ (KubernetesUndeployCommand.Execute (exampleEnv true abortOptions)
        ["-i", "op-1", "-a", "abort"]).calls ∧
      Call.StartMtaOperation ∉ (KubernetesUndeployCommand.Execute (exampleEnv true abortOptions)
        ["-i", "op-1", "-a", "abort"]).calls) := by
  have h := action_form (exampleEnv true abortOptions) ["-i", "op-1", "-a", "abort"] []
    abortOptions ⟨"org", "space", "user"⟩ (Or.inl (by decide))
  have hdrun : KubernetesDeployCommand.Execute (exampleEnv true abortOptions)
      ["-i", "op-1", "-a", "abort"] =
      ⟨[.CreateFlags none, .ContainsSpecificOptions ["-i", "op-1", "-a", "abort"] (true, none),
        .ParseFlags ["-i", "op-1", "-a", "abort"] [] (.ok abortOptions),
        .GetContext (.ok ⟨"org", "space", "user"⟩),
        .ExecuteAction "op-1" "abort" "" .Success], .returned .Success⟩ :=
    h.1.2 rfl rfl rfl rfl
  have hurun : KubernetesUndeployCommand.Execute (exampleEnv true abortOptions)
      ["-i", "op-1", "-a", "abort"] =
      ⟨[.CreateFlags none, .ContainsSpecificOptions ["-i", "op-1", "-a", "abort"] (true, none),
        .ParseFlags ["-i", "op-1", "-a", "abort"] [] (.ok abortOptions),
        .GetContext (.ok ⟨"org", "space", "user"⟩),
        .ExecuteAction "op-1" "abort" "" .Success], .returned .Success⟩ :=
    h.2.2 rfl rfl rfl
  have hd := h.1.1 (by rw [hdrun]; simp) (by rw [hdrun]; simp)
  have hu := h.2.1 (by rw [hurun]; simp) (by rw [hurun]; simp)
  exact ⟨⟨hdrun, hd.2.2.2.2.2.1, hd.2.2.2.2.2.2.2⟩, ⟨hurun, hu.2.2.2.2.2.1, hu.2.2.2.2.2.2.2⟩⟩

/-- C3, upload failure stops the deploy: when an upload in a run of
`KubernetesDeployCommand.Execute` returns the status `Failure`, `Execute`
returns `Failure`, the run holds no `StartMtaOperation` call, and the failed
upload is the last call of the run; so when the failed upload is the first
one, that of the archive, it is the only upload of the run. -/
theorem upload_failure_stops_deploy (env : Env) (args files : List String)
    (uploaded : List FileMetadata)
    (h : Event.UploadFiles files (uploaded, .Failure) ∈
      (KubernetesDeployCommand.Execute env args).trace) :
    (KubernetesDeployCommand.Execute env args).outcome = .returned .Failure ∧
    Call.StartMtaOperation ∉ (KubernetesDeployCommand.Execute env args).calls ∧
    (KubernetesDeployCommand.Execute env args).trace.getLast? =
      some (Event.UploadFiles files (uploaded, .Failure)) ∧
    (((KubernetesDeployCommand.Execute env args).trace.filter
        (fun e => e.call = Call.UploadFiles)).head? =
        some (Event.UploadFiles files (uploaded, .Failure)) →
      (KubernetesDeployCommand.Execute env args).calls.count .UploadFiles = 1) := by
  have hp := deploy_run env args
  generalize KubernetesDeployCommand.Execute env args = r at hp h ⊢
  cases hp
  case extDescriptorUploadFailed b v c a p ps m fs hc hup hux =>
    obtain ⟨hne, fs1, hfs⟩ := uploadExtDescriptors_eq_none env ps hux
    simp [deployParsed, deployChecked, deployArchiveUpload, uploadExtDescriptorsCalls,
      Result.calls, Event.call, hfs, hne] at h ⊢
    simp [h]
  case buildFailed b v c a p ps m fs ids error hu hb =>
    rcases uploadExtDescriptors_eq_some env ps ids hu.2.2 with
      ⟨rfl, rfl⟩ | ⟨hne, fs1, hfs, rfl⟩
    · simp [deployParsed, deployChecked, deployUploadedCalls, deployArchiveUpload,
        uploadExtDescriptorsCalls, KubernetesDeployCommand.buildCalls] at h
    · simp [deployParsed, deployChecked, deployUploadedCalls, deployArchiveUpload,
        uploadExtDescriptorsCalls, KubernetesDeployCommand.buildCalls, hfs, hne] at h
  case secondGetSessionFailed b v c a p ps m fs ids op e hu hb hgs =>
    rcases uploadExtDescriptors_eq_some env ps ids hu.2.2 with
      ⟨rfl, rfl⟩ | ⟨hne, fs1, hfs, rfl⟩
    · simp [deployParsed, deployChecked, deployBuilt, deployUploadedCalls, deployArchiveUpload,
        uploadExtDescriptorsCalls, KubernetesDeployCommand.buildCalls] at h
    · simp [deployParsed, deployChecked, deployBuilt, deployUploadedCalls, deployArchiveUpload,
        uploadExtDescriptorsCalls, KubernetesDeployCommand.buildCalls, hfs, hne] at h
  case startFailed b v c a p ps m fs ids op e hu hb hgs hst =>
    rcases uploadExtDescriptors_eq_some env ps ids hu.2.2 with
      ⟨rfl, rfl⟩ | ⟨hne, fs1, hfs, rfl⟩
    · simp [deployParsed, deployChecked, deployBuilt, deployUploadedCalls, deployArchiveUpload,
        uploadExtDescriptorsCalls, KubernetesDeployCommand.buildCalls] at h
    · simp [deployParsed, deployChecked, deployBuilt, deployUploadedCalls, deployArchiveUpload,
        uploadExtDescriptorsCalls, KubernetesDeployCommand.buildCalls, hfs, hne] at h
  case monitored b v c a p ps m fs ids op l hu hb hgs hst =>
    rcases uploadExtDescriptors_eq_some env ps ids hu.2.2 with
      ⟨rfl, rfl⟩ | ⟨hne, fs1, hfs, rfl⟩
    · simp [deployParsed, deployChecked, deployBuilt, deployUploadedCalls, deployArchiveUpload,
        uploadExtDescriptorsCalls, KubernetesDeployCommand.buildCalls] at h
    · simp [deployParsed, deployChecked, deployBuilt, deployUploadedCalls, deployArchiveUpload,
        uploadExtDescriptorsCalls, KubernetesDeployCommand.buildCalls, hfs, hne] at h
  all_goals
    simp [deployParsed, deployChecked, deployArchiveUpload, Result.calls, Event.call] at h ⊢
  all_goals simp [h]

/-- C3 at a deploy whose archive upload fails. -/
theorem upload_failure_stops_deploy_witness :
    (KubernetesDeployCommand.Execute uploadFailingEnv ["app.mtar"]).outcome =
      .returned .Failure ∧
    Call.StartMtaOperation ∉
      (KubernetesDeployCommand.Execute uploadFailingEnv ["app.mtar"]).calls :=
  have h := upload_failure_stops_deploy uploadFailingEnv ["app.mtar"] ["app.mtar"] []
    (by simp [KubernetesDeployCommand.Execute, uploadFailingEnv, exampleEnv, noOptions,
      positionalArgNames, getExtDescriptorPaths])
  ⟨h.1, h.2.1⟩

/-- C4, undeploy confirmation: in a run of `KubernetesUndeployCommand.Execute`
whose command line parses to `v`, when the force flag is false and the operator
answers the confirmation prompt negatively the command returns `Failure` and
the run holds no creation of the REST client, no `CheckOngoingOperation` and no
`StartMtaOperation`; when the force flag is true the run holds no confirmation
prompt. -/
theorem undeploy_confirmation (env : Env) (args positionalArgNames : List String)
    (v : OptionValues)
    (hpf : Event.ParseFlags args positionalArgNames (.ok v) ∈
      (KubernetesUndeployCommand.Execute env args).trace) :
    (v.force = false → ∀ mtaID,
      Event.Confirm mtaID false ∈ (KubernetesUndeployCommand.Execute env args).trace →
      (KubernetesUndeployCommand.Execute env args).outcome = .returned .Failure ∧
      Call.NewMtaClient ∉ (KubernetesUndeployCommand.Execute env args).calls ∧
      Call.CheckOngoingOperation ∉ (KubernetesUndeployCommand.Execute env args).calls ∧
      Call.StartMtaOperation ∉ (KubernetesUndeployCommand.Execute env args).calls) ∧
    (v.force = true → Call.Confirm ∉ (KubernetesUndeployCommand.Execute env args).calls) := by
  have hp := undeploy_run env args
  generalize KubernetesUndeployCommand.Execute env args = r at hp hpf ⊢
  cases hp <;>
    simp only [undeployParsed, undeployChecked, confirmCalls,
      KubernetesUndeployCommand.buildCalls, Result.calls] at hpf ⊢ <;>
    (try split_ifs at hpf ⊢) <;>
    simp [Event.call] at hpf ⊢ <;> simp_all [UndeployCleared, UndeployArgument]

/-- C4 at an undeploy without `-f` in which the operator answers no. -/
theorem undeploy_confirmation_witness :
    (KubernetesUndeployCommand.Execute refusingEnv ["my-mta"]).outcome = .returned .Failure ∧
    Call.NewMtaClient ∉ (KubernetesUndeployCommand.Execute refusingEnv ["my-mta"]).calls ∧
    Call.CheckOngoingOperation ∉
      (KubernetesUndeployCommand.Execute refusingEnv ["my-mta"]).calls ∧
    Call.StartMtaOperation ∉ (KubernetesUndeployCommand.Execute refusingEnv ["my-mta"]).calls :=
  (undeploy_confirmation refusingEnv ["my-mta"] ["MTA_ID"] noOptions
    (by simp [KubernetesUndeployCommand.Execute, refusingEnv, exampleEnv, noOptions,
      positionalArgNames, confirmCalls])).1 rfl "my-mta"
    (by simp [KubernetesUndeployCommand.Execute, refusingEnv, exampleEnv, noOptions,
      positionalArgNames, confirmCalls])

/-- The part of C5 that holds: in a run of `KubernetesDeployCommand.Execute`
in which the option-pair check or `ParseFlags` returns an error, and in a run
of `KubernetesUndeployCommand.Execute` in which `ParseFlags` returns an error,
`Execute` returns `Failure` and the run holds no `GetContext`, `ExecuteAction`,
`CheckOngoingOperation`, upload or `StartMtaOperation` call. -/
theorem validation_failure_is_fatal (env : Env) (args positionalArgNames : List String)
    (b : Bool) (err : String) :
    (Event.ContainsSpecificOptions args (b, some err) ∈
          (KubernetesDeployCommand.Execute env args).trace ∨
        Event.ParseFlags args positionalArgNames (.error err) ∈
          (KubernetesDeployCommand.Execute env args).trace →
      (KubernetesDeployCommand.Execute env args).outcome = .returned .Failure ∧
      ∀ k ∈ (KubernetesDeployCommand.Execute env args).calls,
        k ∈ [Call.CreateFlags, .ContainsSpecificOptions, .ParseFlags]) ∧
    (Event.ParseFlags args positionalArgNames (.error err) ∈
        (KubernetesUndeployCommand.Execute env args).trace →
      (KubernetesUndeployCommand.Execute env args).outcome = .returned .Failure ∧
      ∀ k ∈ (KubernetesUndeployCommand.Execute env args).calls,
        k ∈ [Call.CreateFlags, .ContainsSpecificOptions, .ParseFlags]) := by
  constructor
  · intro h
    have hp := deploy_run env args
    generalize KubernetesDeployCommand.Execute env args = r at hp h ⊢
    cases hp <;>
      simp only [deployParsed, deployChecked, deployBuilt, deployUploadedCalls, deployArchiveUpload,
        uploadExtDescriptorsCalls, KubernetesDeployCommand.buildCalls, Result.calls] at h ⊢ <;>
      (try split_ifs at h ⊢) <;>
      simp [Event.call] at h ⊢
  · intro h
    have hp := undeploy_run env args
    generalize KubernetesUndeployCommand.Execute env args = r at hp h ⊢
    cases hp <;>
      simp only [undeployParsed, undeployChecked, confirmCalls,
        KubernetesUndeployCommand.buildCalls, Result.calls] at h ⊢ <;>
      (try split_ifs at h ⊢) <;>
      simp [Event.call] at h ⊢

/-- C5 fails for `k8s-undeploy`: on `k8s-undeploy my-mta -i op-1`, where the
option-pair check returns an error (`-i` without `-a`) and `ParseFlags`
succeeds, `KubernetesUndeployCommand.Execute` drops the error, goes on to
`GetContext` and `ExecuteAction("op-1", "", host)` and returns the status of
the latter; `KubernetesDeployCommand.Execute` returns `Failure` right after the
check in the same environment. -/
theorem undeploy_ignores_option_pair_error :
    (lonelyOperationIDEnv.ContainsSpecificOptions ["my-mta", "-i", "op-1"]).2 =
      some "All the a i options should be specified together" ∧
    KubernetesUndeployCommand.Execute lonelyOperationIDEnv ["my-mta", "-i", "op-1"] =
      ⟨[.CreateFlags none,
        .ContainsSpecificOptions ["my-mta", "-i", "op-1"]
          (false, some "All the a i options should be specified together"),
        .ParseFlags ["my-mta", "-i", "op-1"] ["MTA_ID"] (.ok ⟨"", "", "op-1", "", false, []⟩),
        .GetContext (.ok ⟨"org", "space", "user"⟩),
        .ExecuteAction "op-1" "" "" .Success],
        .returned .Success⟩ ∧
    KubernetesDeployCommand.Execute lonelyOperationIDEnv ["my-mta", "-i", "op-1"] =
      ⟨[.CreateFlags none,
        .ContainsSpecificOptions ["my-mta", "-i", "op-1"]
          (false, some "All the a i options should be specified together")],
        .returned .Failure⟩ :=
  ⟨rfl, rfl, rfl⟩

/-- The scan `sessionFresh` accepts every run of
`KubernetesDeployCommand.Execute`. -/
theorem deploy_sessionFresh (env : Env) (args : List String) :
    sessionFresh false
      ((KubernetesDeployCommand.Execute env args).trace.map Event.sessionStep) = true := by
  have hp := deploy_run env args
  generalize KubernetesDeployCommand.Execute env args = r at hp ⊢
  cases hp <;>
    simp only [deployParsed, deployChecked, deployBuilt, deployUploadedCalls, deployArchiveUpload,
      uploadExtDescriptorsCalls, KubernetesDeployCommand.buildCalls] <;>
    (try split_ifs) <;>
    (try simp only [List.append_assoc, List.cons_append, List.nil_append, List.append_nil]) <;>
    simp only [List.map_cons, List.map_nil, Event.sessionStep] <;>
    decide

/-- The scan `sessionFresh` accepts every run of
`KubernetesUndeployCommand.Execute`. -/
theorem undeploy_sessionFresh (env : Env) (args : List String) :
    sessionFresh false
      ((KubernetesUndeployCommand.Execute env args).trace.map Event.sessionStep) = true := by
  have hp := undeploy_run env args
  generalize KubernetesUndeployCommand.Execute env args = r at hp ⊢
  cases hp <;>
    simp only [undeployParsed, undeployChecked, confirmCalls,
      KubernetesUndeployCommand.buildCalls] <;>
    (try split_ifs) <;>
    (try simp only [List.append_assoc, List.cons_append, List.nil_append, List.append_nil]) <;>
    (try cases env.GetSession 1) <;>
    simp only [List.map_cons, List.map_nil, Event.sessionStep] <;>
    decide

/-- A run of `KubernetesDeployCommand.Execute` in which a `GetSession` fails
before any start request returns `Failure` without a start request. -/
theorem deploy_sessionFailedFirst (env : Env) (args : List String)
    (h : sessionFailedFirst
      ((KubernetesDeployCommand.Execute env args).trace.map Event.sessionStep) = true) :
    (KubernetesDeployCommand.Execute env args).outcome = .returned .Failure ∧
    Call.StartMtaOperation ∉ (KubernetesDeployCommand.Execute env args).calls := by
  have hp := deploy_run env args
  generalize KubernetesDeployCommand.Execute env args = r at hp h ⊢
  cases hp <;>
    simp only [deployParsed, deployChecked, deployBuilt, deployUploadedCalls, deployArchiveUpload,
      uploadExtDescriptorsCalls, KubernetesDeployCommand.buildCalls, Result.calls] at h ⊢ <;>
    (try split_ifs at h ⊢) <;>
    (try simp only [List.append_assoc, List.cons_append, List.nil_append, List.append_nil]
      at h ⊢) <;>
    simp only [List.map_cons, List.map_nil, Event.sessionStep, Event.call] at h ⊢ <;>
    first
    | exact absurd h (by decide)
    | (constructor <;> first | rfl | trivial)

/-- A run of `KubernetesUndeployCommand.Execute` in which a `GetSession` fails
before any start request returns `Failure` without a start request. -/
theorem undeploy_sessionFailedFirst (env : Env) (args : List String)
    (h : sessionFailedFirst
      ((KubernetesUndeployCommand.Execute env args).trace.map Event.sessionStep) = true) :
    (KubernetesUndeployCommand.Execute env args).outcome = .returned .Failure ∧
    Call.StartMtaOperation ∉ (KubernetesUndeployCommand.Execute env args).calls := by
  have hp := undeploy_run env args
  generalize KubernetesUndeployCommand.Execute env args = r at hp h ⊢
  cases hp <;>
    simp only [undeployParsed, undeployChecked, confirmCalls,
      KubernetesUndeployCommand.buildCalls, Result.calls] at h ⊢ <;>
    (try split_ifs at h ⊢) <;>
    (try simp only [List.append_assoc, List.cons_append, List.nil_append, List.append_nil]
      at h ⊢) <;>
    (try cases env.GetSession 1) <;>
    simp only [List.map_cons, List.map_nil, Event.sessionStep, Event.call] at h ⊢ <;>
    first
    | exact absurd h (by decide)
    | (constructor <;> first | rfl | trivial)

/-- C6, session before start: in every run of either command, each
`StartMtaOperation` call comes after a `GetSession` call that returned no
error, with nothing but calls on the process builder (which make no request)
between the two; and when a `GetSession` call fails with no start request
before it, `Execute` returns `Failure` and the run holds no `StartMtaOperation`
call. -/
theorem session_before_start (env : Env) (args : List String) :
    ((∀ (pre post : List Event) (operation : Operation),
        (KubernetesDeployCommand.Execute env args).trace =
          pre ++ Event.StartMtaOperation operation :: post →
        ∃ pre₁ mid, pre = pre₁ ++ Event.GetSession none :: mid ∧
          ∀ e ∈ mid, e.call.isProcessBuilder = true) ∧
      (∀ (pre post : List Event) (err : String),
        (KubernetesDeployCommand.Execute env args).trace =
          pre ++ Event.GetSession (some err) :: post →
        Call.StartMtaOperation ∉ pre.map Event.call →
        (KubernetesDeployCommand.Execute env args).outcome = .returned .Failure ∧
        Call.StartMtaOperation ∉ (KubernetesDeployCommand.Execute env args).calls)) ∧
    ((∀ (pre post : List Event) (operation : Operation),
        (KubernetesUndeployCommand.Execute env args).trace =
          pre ++ Event.StartMtaOperation operation :: post →
        ∃ pre₁ mid, pre = pre₁ ++ Event.GetSession none :: mid ∧
          ∀ e ∈ mid, e.call.isProcessBuilder = true) ∧
      (∀ (pre post : List Event) (err : String),
        (KubernetesUndeployCommand.Execute env args).trace =
          pre ++ Event.GetSession (some err) :: post →
        Call.StartMtaOperation ∉ pre.map Event.call →
        (KubernetesUndeployCommand.Execute env args).outcome = .returned .Failure ∧
        Call.StartMtaOperation ∉ (KubernetesUndeployCommand.Execute env args).calls)) := by
  refine ⟨⟨?_, ?_⟩, ⟨?_, ?_⟩⟩
  · intro pre post operation h
    rcases sessionFresh_sound _ false (deploy_sessionFresh env args) pre post operation h with
      hx | ⟨hf, -⟩
    · exact hx
    · exact absurd hf (by decide)
  · intro pre post err h hpre
    apply deploy_sessionFailedFirst
    rw [h]
    exact sessionFailedFirst_of_split pre post err hpre
  · intro pre post operation h
    rcases sessionFresh_sound _ false (undeploy_sessionFresh env args) pre post operation h with
      hx | ⟨hf, -⟩
    · exact hx
    · exact absurd hf (by decide)
  · intro pre post err h hpre
    apply undeploy_sessionFailedFirst
    rw [h]
    exact sessionFailedFirst_of_split pre post err hpre

/-- C6 at `k8s-undeploy my-mta -f`, which starts the process: the calls before the
start request end with a successful `GetSession` followed by calls on the
process builder only. -/
theorem session_before_start_witness :
    ∃ pre₁ mid,
      [Event.CreateFlags none, .ContainsSpecificOptions ["my-mta", "-f"] (false, none),
        .ParseFlags ["my-mta", "-f"] ["MTA_ID"] (.ok forceOption),
        .GetContext (.ok ⟨"org", "space", "user"⟩), .NewMtaClient "",
        .CheckOngoingOperation "my-mta" "" true (true, none), .NewSessionProvider "",
        .GetSession none, .NewProcessBuilder, .ProcessType "KUBERNETES_UNDEPLOY",
        .Parameter "mtaId" "my-mta", .Build] = pre₁ ++ Event.GetSession none :: mid ∧
      ∀ e ∈ mid, e.call.isProcessBuilder = true :=
  (session_before_start (exampleEnv false forceOption) ["my-mta", "-f"]).2.1 _
    [.GetSession none, .Monitor "operations/op-1"]
    ⟨"KUBERNETES_UNDEPLOY", [("mtaId", "my-mta")]⟩
    (by simp [KubernetesUndeployCommand.Execute, exampleEnv, forceOption, positionalArgNames,
      confirmCalls, KubernetesUndeployCommand.buildCalls,
      KubernetesUndeployCommand.buildOperation, NewProcessBuilder,
      ProcessBuilder.ProcessType, ProcessBuilder.Parameter, ProcessBuilder.Build,
      kubernetesUndeployCommandProcessTypeProvider.GetProcessType])

/-- The loop over the extension descriptor files keeps the paths collected so
far and adds the absolute path of each file, in the order of the files. -/
theorem extDescriptorPathsLoop_eq_some (abs : String → Except String String) :
    ∀ (files acc paths : List String), extDescriptorPathsLoop abs files acc = some paths →
      ∃ added, paths = acc ++ added ∧
        List.Forall₂ (fun file path => abs file = .ok path) files added := by
  intro files
  induction files with
  | nil =>
    intro acc paths h
    simp only [extDescriptorPathsLoop, Option.some.injEq] at h
    exact ⟨[], by simp [h], List.Forall₂.nil⟩
  | cons file rest ih =>
    intro acc paths h
    unfold extDescriptorPathsLoop at h
    split at h
    · simp at h
    · next path hpath =>
      obtain ⟨added, hadd, hall⟩ := ih _ _ h
      exact ⟨path :: added, by simp [hadd], List.Forall₂.cons hpath hall⟩

/-- The paths handed to the uploader of the extension descriptors are the
absolute paths of the files of the comma-separated `-e` value, in its order;
there is none when the value is empty. -/
theorem getExtDescriptorPaths_eq_some (abs : String → Except String String)
    (extDescriptors : String) (paths : List String)
    (h : getExtDescriptorPaths abs extDescriptors = some paths) :
    List.Forall₂ (fun file path => abs file = .ok path)
      (if extDescriptors = "" then [] else stringsSplit extDescriptors ',') paths := by
  unfold getExtDescriptorPaths at h
  by_cases he : extDescriptors = ""
  · simp only [he, ne_eq, not_true_eq_false, if_false, Option.some.injEq] at h
    simp [he, ← h]
  · simp only [ne_eq, he, not_false_eq_true, if_true] at h
    obtain ⟨added, hadd, hall⟩ := extDescriptorPathsLoop_eq_some abs _ _ _ h
    simp only [List.nil_append] at hadd
    subst hadd
    simpa [he] using hall

/-- The calls of a deploy that got past both uploads: what the uploaders and
the process builder were given. -/
theorem deployUploadedCalls_contents (env : Env) (args : List String) (b : Bool) (v : OptionValues)
    (c : Context) (mtaArchive mtaArchivePath : String) (extDescriptorPaths : List String)
    (mtaID : String) (uploadedMtaArchives : List FileMetadata)
    (uploadedExtDescriptorIDs : List String) (rest : List Event)
    (hrest : ∀ e ∈ rest, e.call.isProcessBuilder = false ∧ e.call ≠ .UploadFiles)
    (hu : DeployUploaded env args b v c mtaArchive mtaArchivePath extDescriptorPaths mtaID
      uploadedMtaArchives uploadedExtDescriptorIDs)
    (trace : List Event)
    (ht : trace = deployUploadedCalls env args b v c mtaArchivePath extDescriptorPaths mtaID
      uploadedMtaArchives uploadedExtDescriptorIDs ++ rest) :
    Event.ParseFlags args (positionalArgNames b "MTA") (.ok v) ∈ trace ∧
    Event.GetContext (.ok c) ∈ trace ∧
    Event.UploadFiles [mtaArchivePath] (uploadedMtaArchives, .Success) ∈ trace ∧
    List.Forall₂ (fun file path => env.Abs file = .ok path)
      (if v.extDescriptors = "" then [] else stringsSplit v.extDescriptors ',')
      extDescriptorPaths ∧
    (extDescriptorPaths = [] →
      uploadedExtDescriptorIDs = [] ∧ (trace.map Event.call).count .UploadFiles = 1) ∧
    (extDescriptorPaths ≠ [] → ∃ uploadedExtDescriptors,
      Event.UploadFiles extDescriptorPaths (uploadedExtDescriptors, .Success) ∈ trace ∧
      uploadedExtDescriptorIDs = uploadedExtDescriptors.map FileMetadata.ID ∧
      (trace.map Event.call).count .UploadFiles = 2) ∧
    trace.filter (fun e => e.call.isProcessBuilder) =
      [.NewProcessBuilder, .ProcessType "KUBERNETES_DEPLOY",
        .Parameter "appArchiveId"
          (String.intercalate "," (uploadedMtaArchives.map FileMetadata.ID)),
        .Parameter "mtaExtDescriptorId" (String.intercalate "," uploadedExtDescriptorIDs),
        .Parameter "targetPlatform" (c.Org ++ " " ++ c.Space),
        .processParametersSetter, .Build] := by
  have hpaths := getExtDescriptorPaths_eq_some env.Abs v.extDescriptors extDescriptorPaths
    hu.1.1.2.2.1
  have hfilter : rest.filter (fun e => e.call.isProcessBuilder) = [] := by
    rw [List.filter_eq_nil_iff]
    intro e he
    simp [(hrest e he).1]
  have hcount : (rest.map Event.call).count .UploadFiles = 0 := by
    rw [List.count_eq_zero]
    intro hmem
    obtain ⟨e, he, hc⟩ := List.mem_map.mp hmem
    exact (hrest e he).2 hc
  have hmem : ∀ e, e ∈ deployParsed args b (.ok v) ++ [.GetContext (.ok c)] ++
      [.NewSessionProvider v.host] ++ [.GetSession none] ++ [.NewMtaClient v.host] ++
      [.UploadFiles [mtaArchivePath] (uploadedMtaArchives, .Success)] → e ∈ trace := by
    intro e he
    subst ht
    simp only [deployUploadedCalls, deployChecked, deployArchiveUpload, List.mem_append,
      List.mem_singleton] at he ⊢
    tauto
  refine ⟨hmem _ (by simp [deployParsed]), hmem _ (by simp), hmem _ (by simp), hpaths,
    ?_, ?_, ?_⟩
  · rintro rfl
    rcases uploadExtDescriptors_eq_some env [] uploadedExtDescriptorIDs hu.2.2 with
      ⟨-, rfl⟩ | ⟨hne, -⟩
    · refine ⟨rfl, ?_⟩
      subst ht
      rw [List.map_append, List.count_append, hcount]
      rfl
    · exact absurd rfl hne
  · intro hne
    rcases uploadExtDescriptors_eq_some env extDescriptorPaths uploadedExtDescriptorIDs
      hu.2.2 with ⟨rfl, -⟩ | ⟨-, files, hfiles, rfl⟩
    · exact absurd rfl hne
    · have hlen : extDescriptorPaths.length ≠ 0 := fun h0 => hne (List.length_eq_zero.mp h0)
      have hcalls : uploadExtDescriptorsCalls env extDescriptorPaths =
          [.UploadFiles extDescriptorPaths (files, .Success)] := by
        simp only [uploadExtDescriptorsCalls, hlen, hfiles, ne_eq, not_false_eq_true, if_true]
      subst ht
      refine ⟨files, ?_, rfl, ?_⟩
      · simp only [deployUploadedCalls, hcalls, List.mem_append, List.mem_singleton]
        tauto
      · rw [List.map_append, List.count_append, hcount]
        simp only [deployUploadedCalls, hcalls]
        rfl
  · subst ht
    rw [List.filter_append, hfilter, List.append_nil]
    by_cases hlen : extDescriptorPaths.length ≠ 0
    · simp only [deployUploadedCalls, uploadExtDescriptorsCalls, hlen, ne_eq, not_false_eq_true,
        if_true]
      rfl
    · simp only [deployUploadedCalls, uploadExtDescriptorsCalls, hlen, ne_eq, if_false]
      rfl

/-- The calls of a deploy up to `Build()` hold no start request. -/
theorem start_not_mem_deployUploadedCalls (env : Env) (args : List String) (b : Bool)
    (v : OptionValues) (c : Context) (mtaArchivePath : String)
    (extDescriptorPaths : List String) (mtaID : String)
    (uploadedMtaArchives : List FileMetadata) (uploadedExtDescriptorIDs : List String)
    (operation : Operation) :
    Event.StartMtaOperation operation ∉ deployUploadedCalls env args b v c mtaArchivePath
      extDescriptorPaths mtaID uploadedMtaArchives uploadedExtDescriptorIDs := by
  simp only [deployUploadedCalls, deployChecked, deployParsed, deployArchiveUpload,
    uploadExtDescriptorsCalls, KubernetesDeployCommand.buildCalls]
  split_ifs <;> simp

/-- C7, deploy start request contents: in a run of
`KubernetesDeployCommand.Execute` that reaches `Build()`, with `v` the parsed
options, `c` the context and `uploadedMtaArchives` what the uploader returned
for the archive, the process builder is given, in this order, the process type
`"KUBERNETES_DEPLOY"`, `appArchiveId` = the identifiers of `uploadedMtaArchives`
joined with `","`, `mtaExtDescriptorId` = the identifiers of the uploaded
extension descriptors joined with `","`, and `targetPlatform` =
`c.Org ++ " " ++ c.Space`; the paths handed to the descriptor uploader are the
absolute paths of the files of the comma-separated `-e` value, in its order;
when there is no such path (as when `-e` is empty) there is no descriptor
upload and `mtaExtDescriptorId` is the empty string; and the request handed to
`StartMtaOperation` is the one that `Build()` gives for that process type and
those three parameters, after `processParametersSetter`. -/
theorem deploy_start_request_contents (env : Env) (args : List String)
    (h : Call.Build ∈ (KubernetesDeployCommand.Execute env args).calls) :
    ∃ (positionalArgNames : List String) (v : OptionValues) (c : Context)
      (mtaArchivePath : String) (uploadedMtaArchives : List FileMetadata)
      (extDescriptorPaths uploadedExtDescriptorIDs : List String),
      Event.ParseFlags args positionalArgNames (.ok v) ∈
        (KubernetesDeployCommand.Execute env args).trace ∧
      Event.GetContext (.ok c) ∈ (KubernetesDeployCommand.Execute env args).trace ∧
      Event.UploadFiles [mtaArchivePath] (uploadedMtaArchives, .Success) ∈
        (KubernetesDeployCommand.Execute env args).trace ∧
      List.Forall₂ (fun file path => env.Abs file = .ok path)
        (if v.extDescriptors = "" then [] else stringsSplit v.extDescriptors ',')
        extDescriptorPaths ∧
      (extDescriptorPaths = [] →
        uploadedExtDescriptorIDs = [] ∧
        (KubernetesDeployCommand.Execute env args).calls.count .UploadFiles = 1) ∧
      (extDescriptorPaths ≠ [] → ∃ uploadedExtDescriptors,
        Event.UploadFiles extDescriptorPaths (uploadedExtDescriptors, .Success) ∈
          (KubernetesDeployCommand.Execute env args).trace ∧
        uploadedExtDescriptorIDs = uploadedExtDescriptors.map FileMetadata.ID ∧
        (KubernetesDeployCommand.Execute env args).calls.count .UploadFiles = 2) ∧
      (KubernetesDeployCommand.Execute env args).trace.filter
          (fun e => e.call.isProcessBuilder) =
        [.NewProcessBuilder, .ProcessType "KUBERNETES_DEPLOY",
          .Parameter "appArchiveId"
            (String.intercalate "," (uploadedMtaArchives.map FileMetadata.ID)),
          .Parameter "mtaExtDescriptorId" (String.intercalate "," uploadedExtDescriptorIDs),
          .Parameter "targetPlatform" (c.Org ++ " " ++ c.Space),
          .processParametersSetter, .Build] ∧
      ∀ operation,
        Event.StartMtaOperation operation ∈ (KubernetesDeployCommand.Execute env args).trace →
        (env.processParametersSetter v
          ((((NewProcessBuilder.ProcessType "KUBERNETES_DEPLOY").Parameter "appArchiveId"
            (String.intercalate "," (uploadedMtaArchives.map FileMetadata.ID))).Parameter
            "mtaExtDescriptorId" (String.intercalate "," uploadedExtDescriptorIDs)).Parameter
            "targetPlatform" (c.Org ++ " " ++ c.Space))).Build = .ok operation := by
  have hp := deploy_run env args
  generalize KubernetesDeployCommand.Execute env args = r at hp h ⊢
  cases hp
  case buildFailed b v c a p ps m fs ids error hu hb =>
    obtain ⟨h1, h2, h3, h4, h5, h6, h7⟩ :=
      deployUploadedCalls_contents env args b v c a p ps m fs ids [] (by simp) hu
        (deployUploadedCalls env args b v c p ps m fs ids) (by simp)
    refine ⟨_, v, c, p, fs, ps, ids, h1, h2, h3, h4, h5, h6, h7, ?_⟩
    intro operation hmem
    exact absurd hmem (start_not_mem_deployUploadedCalls env args b v c p ps m fs ids operation)
  case secondGetSessionFailed b v c a p ps m fs ids op e hu hb hgs =>
    obtain ⟨h1, h2, h3, h4, h5, h6, h7⟩ :=
      deployUploadedCalls_contents env args b v c a p ps m fs ids [.GetSession (some e)]
        (by simp [Event.call, Call.isProcessBuilder]) hu
        (deployBuilt env args b v c p ps m fs ids (some e)) rfl
    refine ⟨_, v, c, p, fs, ps, ids, h1, h2, h3, h4, h5, h6, h7, ?_⟩
    intro operation hmem
    simp only [deployBuilt, List.mem_append, List.mem_singleton, reduceCtorEq, or_false] at hmem
    exact absurd hmem (start_not_mem_deployUploadedCalls env args b v c p ps m fs ids operation)
  case startFailed b v c a p ps m fs ids op e hu hb hgs hst =>
    obtain ⟨h1, h2, h3, h4, h5, h6, h7⟩ :=
      deployUploadedCalls_contents env args b v c a p ps m fs ids
        [.GetSession none, .StartMtaOperation op]
        (by simp [Event.call, Call.isProcessBuilder]) hu
        (deployBuilt env args b v c p ps m fs ids none ++ [.StartMtaOperation op])
        (by simp [deployBuilt])
    refine ⟨_, v, c, p, fs, ps, ids, h1, h2, h3, h4, h5, h6, h7, ?_⟩
    intro operation hmem
    simp only [deployBuilt, List.mem_append, List.mem_singleton, reduceCtorEq, or_false,
      Event.StartMtaOperation.injEq] at hmem
    rcases hmem with hmem | rfl
    · exact absurd hmem
        (start_not_mem_deployUploadedCalls env args b v c p ps m fs ids operation)
    · exact hb
  case monitored b v c a p ps m fs ids op l hu hb hgs hst =>
    obtain ⟨h1, h2, h3, h4, h5, h6, h7⟩ :=
      deployUploadedCalls_contents env args b v c a p ps m fs ids
        [.GetSession none, .StartMtaOperation op, .Monitor l]
        (by simp [Event.call, Call.isProcessBuilder]) hu
        (deployBuilt env args b v c p ps m fs ids none ++ [.StartMtaOperation op] ++
          [.Monitor l])
        (by simp [deployBuilt])
    refine ⟨_, v, c, p, fs, ps, ids, h1, h2, h3, h4, h5, h6, h7, ?_⟩
    intro operation hmem
    simp only [deployBuilt, List.mem_append, List.mem_singleton, reduceCtorEq, or_false,
      Event.StartMtaOperation.injEq] at hmem
    rcases hmem with hmem | rfl
    · exact absurd hmem
        (start_not_mem_deployUploadedCalls env args b v c p ps m fs ids operation)
    · exact hb
  all_goals
    simp only [deployParsed, deployChecked, deployArchiveUpload,
      uploadExtDescriptorsCalls, Result.calls] at h
  all_goals (try split_ifs at h)
  all_goals simp [Event.call] at h

/-- The run of `k8s-deploy app.mtar -e a.mtaext,b.mtaext`, evaluated: the
descriptors are uploaded in the order of the `-e` value and the identifiers
are joined in that order. -/
theorem deploy_two_descriptors_run :
    KubernetesDeployCommand.Execute twoDescriptorsEnv twoDescriptorsArgs =
      ⟨[.CreateFlags none, .ContainsSpecificOptions twoDescriptorsArgs (false, none),
        .ParseFlags twoDescriptorsArgs ["MTA"] (.ok twoDescriptors),
        .GetContext (.ok ⟨"org", "space", "user"⟩), .GetMtaIDFromArchive "app.mtar",
        .CheckOngoingOperation "my-mta" "" false (true, none), .NewSessionProvider "",
        .GetSession none, .NewMtaClient "",
        .UploadFiles ["app.mtar"] ([⟨"app.mtar"⟩], .Success),
        .UploadFiles ["a.mtaext", "b.mtaext"] ([⟨"a.mtaext"⟩, ⟨"b.mtaext"⟩], .Success),
        .NewProcessBuilder, .ProcessType "KUBERNETES_DEPLOY",
        .Parameter "appArchiveId" "app.mtar",
        .Parameter "mtaExtDescriptorId" "a.mtaext,b.mtaext",
        .Parameter "targetPlatform" "org space",
        .processParametersSetter, .Build, .GetSession none,
        .StartMtaOperation ⟨"KUBERNETES_DEPLOY", [("appArchiveId", "app.mtar"),
          ("mtaExtDescriptorId", "a.mtaext,b.mtaext"), ("targetPlatform", "org space")]⟩,
        .Monitor "operations/op-1"],
        .returned .Success⟩ := by
  rfl

/-- C7 at `k8s-deploy app.mtar -e a.mtaext,b.mtaext`, a run that hands
`StartMtaOperation` the request with the three parameters. -/
theorem deploy_start_request_contents_witness :
    Event.StartMtaOperation ⟨"KUBERNETES_DEPLOY", [("appArchiveId", "app.mtar"),
        ("mtaExtDescriptorId", "a.mtaext,b.mtaext"), ("targetPlatform", "org space")]⟩ ∈
      (KubernetesDeployCommand.Execute twoDescriptorsEnv twoDescriptorsArgs).trace ∧
    ∃ (positionalArgNames : List String) (v : OptionValues) (c : Context)
      (mtaArchivePath : String) (uploadedMtaArchives : List FileMetadata)
      (extDescriptorPaths uploadedExtDescriptorIDs : List String),
      Event.ParseFlags twoDescriptorsArgs positionalArgNames (.ok v) ∈
        (KubernetesDeployCommand.Execute twoDescriptorsEnv twoDescriptorsArgs).trace ∧
      Event.GetContext (.ok c) ∈
        (KubernetesDeployCommand.Execute twoDescriptorsEnv twoDescriptorsArgs).trace ∧
      Event.UploadFiles [mtaArchivePath] (uploadedMtaArchives, .Success) ∈
        (KubernetesDeployCommand.Execute twoDescriptorsEnv twoDescriptorsArgs).trace ∧
      List.Forall₂ (fun file path => twoDescriptorsEnv.Abs file = .ok path)
        (if v.extDescriptors = "" then [] else stringsSplit v.extDescriptors ',')
        extDescriptorPaths ∧
      (extDescriptorPaths = [] →
        uploadedExtDescriptorIDs = [] ∧
        (KubernetesDeployCommand.Execute twoDescriptorsEnv
          twoDescriptorsArgs).calls.count .UploadFiles = 1) ∧
      (extDescriptorPaths ≠ [] → ∃ uploadedExtDescriptors,
        Event.UploadFiles extDescriptorPaths (uploadedExtDescriptors, .Success) ∈
          (KubernetesDeployCommand.Execute twoDescriptorsEnv twoDescriptorsArgs).trace ∧
        uploadedExtDescriptorIDs = uploadedExtDescriptors.map FileMetadata.ID ∧
        (KubernetesDeployCommand.Execute twoDescriptorsEnv
          twoDescriptorsArgs).calls.count .UploadFiles = 2) ∧
      (KubernetesDeployCommand.Execute twoDescriptorsEnv twoDescriptorsArgs).trace.filter
          (fun e => e.call.isProcessBuilder) =
        [.NewProcessBuilder, .ProcessType "KUBERNETES_DEPLOY",
          .Parameter "appArchiveId"
            (String.intercalate "," (uploadedMtaArchives.map FileMetadata.ID)),
          .Parameter "mtaExtDescriptorId" (String.intercalate "," uploadedExtDescriptorIDs),
          .Parameter "targetPlatform" (c.Org ++ " " ++ c.Space),
          .processParametersSetter, .Build] ∧
      ∀ operation,
        Event.StartMtaOperation operation ∈
          (KubernetesDeployCommand.Execute twoDescriptorsEnv twoDescriptorsArgs).trace →
        (twoDescriptorsEnv.processParametersSetter v
          ((((NewProcessBuilder.ProcessType "KUBERNETES_DEPLOY").Parameter "appArchiveId"
            (String.intercalate "," (uploadedMtaArchives.map FileMetadata.ID))).Parameter
            "mtaExtDescriptorId" (String.intercalate "," uploadedExtDescriptorIDs)).Parameter
            "targetPlatform" (c.Org ++ " " ++ c.Space))).Build = .ok operation :=
  ⟨by rw [deploy_two_descriptors_run]; simp,
    deploy_start_request_contents twoDescriptorsEnv twoDescriptorsArgs (by decide)⟩

/-- The request that `k8s-undeploy` builds: `Build()` fails on an empty
`mtaId` and gives the process type and the one parameter otherwise. -/
theorem undeploy_buildOperation (mtaID : String) :
    KubernetesUndeployCommand.buildOperation mtaID =
      if mtaID = "" then .error .emptyMandatoryParameter
      else .ok ⟨"KUBERNETES_UNDEPLOY", [("mtaId", mtaID)]⟩ := by
  have hm : mandatoryParameters "KUBERNETES_UNDEPLOY" = ["mtaId"] := by decide
  simp only [KubernetesUndeployCommand.buildOperation, NewProcessBuilder,
    ProcessBuilder.ProcessType, ProcessBuilder.Parameter, ProcessBuilder.Build,
    kubernetesUndeployCommandProcessTypeProvider.GetProcessType, hm]
  by_cases h : mtaID = "" <;> simp [h]

/-- The runs of `KubernetesUndeployCommand.Execute` with a start request or
with an empty `args[0]`. -/
theorem undeploy_empty_mtaId_run (env : Env) (args : List String) :
    (∀ operation,
      Event.StartMtaOperation operation ∈ (KubernetesUndeployCommand.Execute env args).trace →
      ∃ mtaID, args.head? = some mtaID ∧ mtaID ≠ "" ∧
        operation = ⟨"KUBERNETES_UNDEPLOY", [("mtaId", mtaID)]⟩) ∧
    (args.head? = some "" →
      Call.StartMtaOperation ∉ (KubernetesUndeployCommand.Execute env args).calls ∧
      (Call.ExecuteAction ∉ (KubernetesUndeployCommand.Execute env args).calls →
        (KubernetesUndeployCommand.Execute env args).outcome ≠ .returned .Success) ∧
      (Call.Build ∈ (KubernetesUndeployCommand.Execute env args).calls →
        (KubernetesUndeployCommand.Execute env args).outcome =
          .validationError .emptyMandatoryParameter)) := by
  have hp := undeploy_run env args
  generalize KubernetesUndeployCommand.Execute env args = r at hp ⊢
  have hbuild : ∀ (m : String) (op : Operation),
      KubernetesUndeployCommand.buildOperation m = .ok op →
      m ≠ "" ∧ op = ⟨"KUBERNETES_UNDEPLOY", [("mtaId", m)]⟩ := by
    intro m op h
    rw [undeploy_buildOperation] at h
    split_ifs at h with hm
    simp only [Except.ok.injEq] at h
    exact ⟨hm, h.symm⟩
  have hfail : ∀ (error : ValidationError),
      KubernetesUndeployCommand.buildOperation "" = .error error →
      error = .emptyMandatoryParameter := by
    intro error h
    rw [undeploy_buildOperation] at h
    simpa using h.symm
  cases hp
  case buildFailed v c m error hc hsp hgs hb =>
    refine ⟨?_, ?_⟩
    · intro operation hmem
      simp only [undeployParsed, undeployChecked, confirmCalls,
        KubernetesUndeployCommand.buildCalls] at hmem
      split_ifs at hmem <;> simp at hmem
    · intro harg
      have hm : m = "" := by
        have := hc.1.2.2.2.2
        rw [harg] at this
        exact (Option.some.inj this).symm
      subst hm
      have herr := hfail error hb
      subst herr
      simp only [undeployParsed, undeployChecked, confirmCalls,
        KubernetesUndeployCommand.buildCalls, Result.calls]
      split_ifs <;> simp [Event.call]
  case startFailed v c m op e hc hsp hgs hb hst =>
    obtain ⟨hne, rfl⟩ := hbuild m op hb
    refine ⟨?_, ?_⟩
    · intro operation hmem
      simp only [undeployParsed, undeployChecked, confirmCalls,
        KubernetesUndeployCommand.buildCalls] at hmem
      have hop : operation = ⟨"KUBERNETES_UNDEPLOY", [("mtaId", m)]⟩ := by
        split_ifs at hmem <;> simpa using hmem
      exact ⟨m, hc.1.2.2.2.2, hne, hop⟩
    · intro harg
      have := hc.1.2.2.2.2
      rw [harg] at this
      exact absurd (Option.some.inj this).symm hne
  case monitored v c m op l hc hsp hgs hb hst =>
    obtain ⟨hne, rfl⟩ := hbuild m op hb
    refine ⟨?_, ?_⟩
    · intro operation hmem
      simp only [undeployParsed, undeployChecked, confirmCalls,
        KubernetesUndeployCommand.buildCalls] at hmem
      have hop : operation = ⟨"KUBERNETES_UNDEPLOY", [("mtaId", m)]⟩ := by
        split_ifs at hmem <;> simpa using hmem
      exact ⟨m, hc.1.2.2.2.2, hne, hop⟩
    · intro harg
      have := hc.1.2.2.2.2
      rw [harg] at this
      exact absurd (Option.some.inj this).symm hne
  all_goals
    simp only [undeployParsed, undeployChecked, confirmCalls, Result.calls]
  all_goals (try split_ifs)
  all_goals simp [Event.call]

/-- The run of `KubernetesUndeployCommand.Execute` on an empty `args[0]` when
every collaborator up to `Build()` succeeds. -/
theorem undeploy_empty_mtaId_reached (env : Env) (args : List String) (v : OptionValues)
    (c : Context)
    (hcf : env.CreateFlags = none)
    (hpf : env.ParseFlags args
      (positionalArgNames (env.ContainsSpecificOptions args).1 "MTA_ID") = .ok v)
    (hgc : env.GetContext = .ok c)
    (hid : v.operationID = "") (hact : v.action = "")
    (harg : args.head? = some "")
    (hconf : v.force = true ∨ env.Confirm "" = true)
    (hmc : env.NewMtaClient v.host = none)
    (hchk : env.CheckOngoingOperation "" v.host v.force = (true, none))
    (hsp : env.NewSessionProvider v.host = none)
    (hgs : env.GetSession 0 = none) :
    KubernetesUndeployCommand.Execute env args =
      ⟨undeployChecked env args v c "" (true, none) ++ [.NewSessionProvider v.host] ++
        [.GetSession none] ++ KubernetesUndeployCommand.buildCalls "",
        .validationError .emptyMandatoryParameter⟩ := by
  have hb : KubernetesUndeployCommand.buildOperation "" =
      .error .emptyMandatoryParameter := by
    rw [undeploy_buildOperation]
    simp
  have hcond : (!v.force && !env.Confirm "") = false := by
    rcases hconf with h | h <;> simp [h]
  simp only [KubernetesUndeployCommand.Execute, hcf, hpf, hgc, hid, hact, harg, hcond, hmc,
    hchk, hsp, hgs, hb, ne_eq, not_true_eq_false, or_self, if_false, Bool.false_eq_true,
    undeployChecked, undeployParsed]

/-- C8, mandatory `mtaId` for undeploy, against the process builder modelled
from the spec: every start request of `KubernetesUndeployCommand.Execute`
carries the non-empty `mtaId` = `args[0]`; with an empty `args[0]` no run holds
a `StartMtaOperation` call, no run outside the action form returns `Success`,
and a run that reaches `Build()` ends with the validation error of the empty
mandatory parameter; and such a run is reached: when the flags parse without
`-i` and `-a` values, the context resolves, the operator confirms or `-f` is
given, and the REST client, the conflict check and the session succeed,
`Execute` on an empty `args[0]` fails with that validation error at `Build()`
and calls `StartMtaOperation` zero times. -/
theorem undeploy_mandatory_mtaId (env : Env) (args : List String) :
    (∀ operation,
      Event.StartMtaOperation operation ∈ (KubernetesUndeployCommand.Execute env args).trace →
      ∃ mtaID, args.head? = some mtaID ∧ mtaID ≠ "" ∧
        operation = ⟨"KUBERNETES_UNDEPLOY", [("mtaId", mtaID)]⟩) ∧
    (args.head? = some "" →
      Call.StartMtaOperation ∉ (KubernetesUndeployCommand.Execute env args).calls ∧
      (Call.ExecuteAction ∉ (KubernetesUndeployCommand.Execute env args).calls →
        (KubernetesUndeployCommand.Execute env args).outcome ≠ .returned .Success) ∧
      (Call.Build ∈ (KubernetesUndeployCommand.Execute env args).calls →
        (KubernetesUndeployCommand.Execute env args).outcome =
          .validationError .emptyMandatoryParameter)) ∧
    (∀ (v : OptionValues) (c : Context),
      env.CreateFlags = none →
      env.ParseFlags args
        (positionalArgNames (env.ContainsSpecificOptions args).1 "MTA_ID") = .ok v →
      env.GetContext = .ok c →
      v.operationID = "" → v.action = "" →
      args.head? = some "" →
      v.force = true ∨ env.Confirm "" = true →
      env.NewMtaClient v.host = none →
      env.CheckOngoingOperation "" v.host v.force = (true, none) →
      env.NewSessionProvider v.host = none →
      env.GetSession 0 = none →
      (KubernetesUndeployCommand.Execute env args).outcome =
        .validationError .emptyMandatoryParameter ∧
      Call.Build ∈ (KubernetesUndeployCommand.Execute env args).calls ∧
      Call.StartMtaOperation ∉ (KubernetesUndeployCommand.Execute env args).calls) := by
  refine ⟨(undeploy_empty_mtaId_run env args).1, (undeploy_empty_mtaId_run env args).2, ?_⟩
  intro v c hcf hpf hgc hid hact harg hconf hmc hchk hsp hgs
  have hrun := undeploy_empty_mtaId_reached env args v c hcf hpf hgc hid hact harg hconf hmc
    hchk hsp hgs
  have hout : (KubernetesUndeployCommand.Execute env args).outcome =
      .validationError .emptyMandatoryParameter := by rw [hrun]
  have hreach : Call.Build ∈ (KubernetesUndeployCommand.Execute env args).calls := by
    rw [hrun]
    simp [Result.calls, KubernetesUndeployCommand.buildCalls, Event.call]
  exact ⟨hout, hreach, ((undeploy_empty_mtaId_run env args).2 harg).1⟩

/-- C8 at `k8s-undeploy ""` with an operator who confirms and collaborators
that all succeed: the run ends at `Build()` with the validation error and
holds no start request. -/
theorem undeploy_mandatory_mtaId_witness :
    (KubernetesUndeployCommand.Execute (exampleEnv false noOptions) [""]).outcome =
      .validationError .emptyMandatoryParameter ∧
    Call.Build ∈ (KubernetesUndeployCommand.Execute (exampleEnv false noOptions) [""]).calls ∧
    Call.StartMtaOperation ∉
      (KubernetesUndeployCommand.Execute (exampleEnv false noOptions) [""]).calls :=
  (undeploy_mandatory_mtaId (exampleEnv false noOptions) [""]).2.2 noOptions
    ⟨"org", "space", "user"⟩ rfl rfl rfl rfl rfl rfl (Or.inr rfl) rfl rfl rfl rfl

/-- The run of `k8s-undeploy ""` with an operator who confirms, evaluated. -/
theorem undeploy_empty_mtaId_example :
    KubernetesUndeployCommand.Execute (exampleEnv false noOptions) [""] =
      ⟨[.CreateFlags none, .ContainsSpecificOptions [""] (false, none),
        .ParseFlags [""] ["MTA_ID"] (.ok noOptions),
        .GetContext (.ok ⟨"org", "space", "user"⟩), .Confirm "" true, .NewMtaClient "",
        .CheckOngoingOperation "" "" false (true, none), .NewSessionProvider "",
        .GetSession none, .NewProcessBuilder, .ProcessType "KUBERNETES_UNDEPLOY",
        .Parameter "mtaId" "", .Build],
        .validationError .emptyMandatoryParameter⟩ := by
  rfl

/-- C9, undeploy start request contents: in a run of
`KubernetesUndeployCommand.Execute` that reaches `StartMtaOperation`, the
process builder was given, in this order, the process type
`"KUBERNETES_UNDEPLOY"` and the one parameter `mtaId` with the value `args[0]`,
the request handed to `StartMtaOperation` is the one built from them, and the
one conflict check of the run was made for that same `args[0]`. -/
theorem undeploy_request_contents (env : Env) (args : List String)
    (operation : Operation)
    (h : Event.StartMtaOperation operation ∈ (KubernetesUndeployCommand.Execute env args).trace) :
    ∃ mtaID, args.head? = some mtaID ∧
      (KubernetesUndeployCommand.Execute env args).trace.filter
          (fun e => e.call.isProcessBuilder) =
        [.NewProcessBuilder, .ProcessType "KUBERNETES_UNDEPLOY", .Parameter "mtaId" mtaID,
          .Build] ∧
      ((NewProcessBuilder.ProcessType "KUBERNETES_UNDEPLOY").Parameter "mtaId" mtaID).Build =
        .ok operation ∧
      ∃ host force result,
        (KubernetesUndeployCommand.Execute env args).trace.filter
            (fun e => e.call = Call.CheckOngoingOperation) =
          [.CheckOngoingOperation mtaID host force result] := by
  have hp := undeploy_run env args
  generalize KubernetesUndeployCommand.Execute env args = r at hp h ⊢
  cases hp
  case startFailed v c m op e hc hsp hgs hb hst =>
    refine ⟨m, hc.1.2.2.2.2, ?_, ?_, v.host, v.force, (true, none), ?_⟩
    · simp only [undeployChecked, undeployParsed, confirmCalls]
      split_ifs <;> rfl
    · simp only [undeployChecked, undeployParsed, confirmCalls,
        KubernetesUndeployCommand.buildCalls] at h
      have hop : operation = op := by
        split_ifs at h <;> simpa using h
      subst hop
      exact hb
    · simp only [undeployChecked, undeployParsed, confirmCalls]
      split_ifs <;> rfl
  case monitored v c m op l hc hsp hgs hb hst =>
    refine ⟨m, hc.1.2.2.2.2, ?_, ?_, v.host, v.force, (true, none), ?_⟩
    · simp only [undeployChecked, undeployParsed, confirmCalls]
      split_ifs <;> rfl
    · simp only [undeployChecked, undeployParsed, confirmCalls,
        KubernetesUndeployCommand.buildCalls] at h
      have hop : operation = op := by
        split_ifs at h <;> simpa using h
      subst hop
      exact hb
    · simp only [undeployChecked, undeployParsed, confirmCalls]
      split_ifs <;> rfl
  all_goals
    simp only [undeployParsed, undeployChecked, confirmCalls,
      KubernetesUndeployCommand.buildCalls] at h
  all_goals (try split_ifs at h)
  all_goals simp at h

/-- C9 at `k8s-undeploy my-mta -f`. -/
theorem undeploy_request_contents_witness :
    ∃ mtaID, ["my-mta", "-f"].head? = some mtaID ∧
      (KubernetesUndeployCommand.Execute (exampleEnv false forceOption) ["my-mta", "-f"]).trace.filter
          (fun e => e.call.isProcessBuilder) =
        [.NewProcessBuilder, .ProcessType "KUBERNETES_UNDEPLOY", .Parameter "mtaId" mtaID,
          .Build] ∧
      ((NewProcessBuilder.ProcessType "KUBERNETES_UNDEPLOY").Parameter "mtaId" mtaID).Build =
        .ok ⟨"KUBERNETES_UNDEPLOY", [("mtaId", "my-mta")]⟩ ∧
      ∃ host force result,
        (KubernetesUndeployCommand.Execute (exampleEnv false forceOption)
            ["my-mta", "-f"]).trace.filter (fun e => e.call = Call.CheckOngoingOperation) =
          [.CheckOngoingOperation mtaID host force result] :=
  undeploy_request_contents (exampleEnv false forceOption) ["my-mta", "-f"]
    ⟨"KUBERNETES_UNDEPLOY", [("mtaId", "my-mta")]⟩
    (by
      have hrun : (KubernetesUndeployCommand.Execute (exampleEnv false forceOption)
          ["my-mta", "-f"]).trace =
          [.CreateFlags none, .ContainsSpecificOptions ["my-mta", "-f"] (false, none),
            .ParseFlags ["my-mta", "-f"] ["MTA_ID"] (.ok forceOption),
            .GetContext (.ok ⟨"org", "space", "user"⟩), .NewMtaClient "",
            .CheckOngoingOperation "my-mta" "" true (true, none), .NewSessionProvider "",
            .GetSession none, .NewProcessBuilder, .ProcessType "KUBERNETES_UNDEPLOY",
            .Parameter "mtaId" "my-mta", .Build,
            .StartMtaOperation ⟨"KUBERNETES_UNDEPLOY", [("mtaId", "my-mta")]⟩,
            .GetSession none, .Monitor "operations/op-1"] := rfl
      rw [hrun]
      simp)

/-- A successful `ParseFlags` call in a run of
`KubernetesDeployCommand.Execute` was made with the positional names that the
option-pair check selects. -/
theorem deploy_parseFlags_event (env : Env) (args positionalArgNames : List String)
    (v : OptionValues)
    (h : Event.ParseFlags args positionalArgNames (.ok v) ∈
      (KubernetesDeployCommand.Execute env args).trace) :
    env.ParseFlags args positionalArgNames = .ok v ∧
    positionalArgNames =
      commands.positionalArgNames (env.ContainsSpecificOptions args).1 "MTA" := by
  have hp := deploy_run env args
  generalize KubernetesDeployCommand.Execute env args = r at hp h
  cases hp <;>
    simp only [deployParsed, deployChecked, deployBuilt, deployUploadedCalls, deployArchiveUpload,
      uploadExtDescriptorsCalls, KubernetesDeployCommand.buildCalls] at h <;>
    (try split_ifs at h) <;>
    simp at h <;>
    (obtain ⟨rfl, rfl⟩ := h
     simp_all [DeployArgument, DeployIdentified, DeployConnected, DeployUploaded])

/-- A successful `ParseFlags` call in a run of
`KubernetesUndeployCommand.Execute` was made with the positional names that the
option-pair check selects. -/
theorem undeploy_parseFlags_event (env : Env) (args positionalArgNames : List String)
    (v : OptionValues)
    (h : Event.ParseFlags args positionalArgNames (.ok v) ∈
      (KubernetesUndeployCommand.Execute env args).trace) :
    env.ParseFlags args positionalArgNames = .ok v ∧
    positionalArgNames =
      commands.positionalArgNames (env.ContainsSpecificOptions args).1 "MTA_ID" := by
  have hp := undeploy_run env args
  generalize KubernetesUndeployCommand.Execute env args = r at hp h
  cases hp <;>
    simp only [undeployParsed, undeployChecked, confirmCalls,
      KubernetesUndeployCommand.buildCalls] at h <;>
    (try split_ifs at h) <;>
    simp at h <;>
    (obtain ⟨rfl, rfl⟩ := h
     simp_all [UndeployArgument, UndeployCleared])

/-- C10, the read of `args[0]` is in bounds: when `ParseFlags` succeeds with
the required positional names `P` only if `args` holds at least `|P|` elements,
and `ContainsSpecificOptions` answers true only if `args` contains `-i` and
`-a`, no run of either command ends with `args[0]` out of range; every run in
which `ParseFlags` succeeded, so every run that reaches the read of `args[0]`,
has a non-empty `args`. -/
theorem positional_argument_in_bounds (env : Env) (args : List String)
    (hpf : ∀ positionalArgNames v,
      env.ParseFlags args positionalArgNames = .ok v → positionalArgNames.length ≤ args.length)
    (hso : (env.ContainsSpecificOptions args).1 = true → "-i" ∈ args ∧ "-a" ∈ args) :
    ((KubernetesDeployCommand.Execute env args).outcome ≠ .indexOutOfRange ∧
      (KubernetesUndeployCommand.Execute env args).outcome ≠ .indexOutOfRange) ∧
    ∀ positionalArgNames v,
      Event.ParseFlags args positionalArgNames (.ok v) ∈
          (KubernetesDeployCommand.Execute env args).trace ∨
        Event.ParseFlags args positionalArgNames (.ok v) ∈
          (KubernetesUndeployCommand.Execute env args).trace →
      args ≠ [] := by
  have hne : ∀ (b : Bool) (name : String) (v : OptionValues),
      (b = true → "-i" ∈ args ∧ "-a" ∈ args) →
      env.ParseFlags args (positionalArgNames b name) = .ok v → args ≠ [] := by
    intro b name v hb hparse hnil
    subst hnil
    cases b with
    | true => simpa using (hb rfl).1
    | false => simpa [positionalArgNames] using hpf _ _ hparse
  have hhead : ∀ l : List String, l.head? = none → l = [] := by
    intro l hl
    cases l with
    | nil => rfl
    | cons a l => simp at hl
  refine ⟨⟨?_, ?_⟩, ?_⟩
  · have hp := deploy_run env args
    generalize KubernetesDeployCommand.Execute env args = r at hp ⊢
    cases hp
    case noArgument b v c hcf hso₂ hparse hgc hact harg =>
      exact absurd (hhead _ harg) (hne b "MTA" v (fun hb => hso (by rw [hso₂]; exact hb)) hparse)
    all_goals simp
  · have hp := undeploy_run env args
    generalize KubernetesUndeployCommand.Execute env args = r at hp ⊢
    cases hp
    case noArgument v c hcf hparse hgc hact harg =>
      exact absurd (hhead _ harg) (hne _ "MTA_ID" v hso hparse)
    all_goals simp
  · intro P v hreach
    rcases hreach with h1 | h1
    · obtain ⟨hparse, rfl⟩ := deploy_parseFlags_event env args P v h1
      exact hne _ "MTA" v hso hparse
    · obtain ⟨hparse, rfl⟩ := undeploy_parseFlags_event env args P v h1
      exact hne _ "MTA_ID" v hso hparse

/-- C10 at `k8s-deploy app.mtar` and `k8s-undeploy app.mtar`, with a
`ParseFlags` that asks for the positional arguments. -/
theorem positional_argument_in_bounds_witness :
    (KubernetesDeployCommand.Execute (exampleEnv false noOptions) ["app.mtar"]).outcome ≠
      .indexOutOfRange ∧
    (KubernetesUndeployCommand.Execute (exampleEnv false noOptions) ["app.mtar"]).outcome ≠
      .indexOutOfRange :=
  (positional_argument_in_bounds (exampleEnv false noOptions) ["app.mtar"]
    (by
      intro positionalArgNames v h
      simp only [exampleEnv] at h
      split_ifs at h with hlen
      exact hlen)
    (by simp [exampleEnv])).1

end commands
